import Mathlib

/-!
Verification of the kubernetes-event-exporter core against its source.

The development shallowly embeds the Go packages `pkg/exporter` (rule
matcher, route engine, config validation) and `pkg/kube` (metadata cache,
event watcher).  Machine integers that are only compared (int32 counts,
int64 seconds, time.Duration nanoseconds) are modelled as `Int`; Go maps
are modelled as association lists with first-match lookup; a compiled
regular expression (`*regexp.Regexp`) is abstracted by its `MatchString`
function, and the regexp compiler by a parameter `RegexEngine`.
-/

namespace EventExporter

/-- A compiled regular expression, abstracted by what the code uses of it:
its partial-match function `MatchString`. -/
abbrev PatFun := String → Bool

/-- The regexp compiler, abstracted: `compile p = none` models
`regexp.Compile(p)` returning an error, `some f` a compiled pattern whose
`MatchString` is `f`. -/
structure RegexEngine where
  compile : String → Option PatFun

/-- Go `matchString` (rules file, lines 11-19): `regexp.MatchString` returns
`matched = false` together with an error when the pattern does not compile;
the error is discarded (`matched, _ := regexp.MatchString(pattern, s)`). -/
def matchString (eng : RegexEngine) (pattern s : String) : Bool :=
  match eng.compile pattern with
  | some f => f s
  | none => false

/-- `corev1.ObjectReference`, restricted to the fields the program reads. -/
structure ObjectReference where
  APIVersion : String := ""
  Kind : String := ""
  Namespace : String := ""
  Name : String := ""
  UID : String := ""
  ResourceVersion : String := ""
deriving DecidableEq

/-- `metav1.OwnerReference`, restricted to the fields the program reads. -/
structure OwnerReference where
  APIVersion : String := ""
  Kind : String := ""
  Name : String := ""
  UID : String := ""
deriving DecidableEq

/-- `corev1.EventSource`. -/
structure EventSource where
  Component : String := ""
  Host : String := ""
deriving DecidableEq

/-- `corev1.EventSeries`, restricted to `LastObservedTime`.  Wall-clock
instants are modelled as `Int`; Go's zero `time.Time` is modelled as `0`
(`IsZero` becomes `= 0`). -/
structure EventSeries where
  LastObservedTime : Int := 0
deriving DecidableEq

/-- `corev1.Event`, restricted to the fields the program reads.  `Count` is
an `int32` in Go, modelled as `Int` (it is only compared, never overflowed).
`ManagedFields` content is irrelevant to the program (it is only cleared),
so entries are modelled as opaque strings. -/
structure Event where
  Name : String := ""
  Namespace : String := ""
  Message : String := ""
  Reason : String := ""
  Type' : String := ""
  Count : Int := 0
  Source : EventSource := {}
  InvolvedObject : ObjectReference := {}
  FirstTimestamp : Int := 0
  LastTimestamp : Int := 0
  EventTime : Int := 0
  Series : Option EventSeries := none
  ManagedFields : List String := []
deriving DecidableEq

/-- Modelled from the spec: `kube.EnhancedObjectReference` (the file
defining `EnhancedEvent` is not among the provided sources; the shape
follows spec section 3 "ObjectMetadata"/"EnhancedEvent" and the field uses
in `pkg/kube/watcher.go` and the rule matcher): the involved object's
reference joined with its looked-up Labels, Annotations, OwnerReferences
and a Deleted flag. -/
structure EnhancedObjectReference where
  ObjectReference : ObjectReference := {}
  Labels : List (String × String) := []
  Annotations : List (String × String) := []
  OwnerReferences : List OwnerReference := []
  Deleted : Bool := false
deriving DecidableEq

/-- Modelled from the spec: `kube.EnhancedEvent` (spec section 3): the raw
event joined with its `EnhancedObjectReference`.  Go embeds `corev1.Event`;
the embedded fields are exposed below as accessors. -/
structure EnhancedEvent where
  Event : Event := {}
  InvolvedObject : EnhancedObjectReference := {}
deriving DecidableEq

/-- Promoted field of the embedded `corev1.Event`. -/
def EnhancedEvent.Message (ev : EnhancedEvent) : String := ev.Event.Message

/-- Promoted field of the embedded `corev1.Event`. -/
def EnhancedEvent.Namespace (ev : EnhancedEvent) : String := ev.Event.Namespace

/-- Promoted field of the embedded `corev1.Event`. -/
def EnhancedEvent.Reason (ev : EnhancedEvent) : String := ev.Event.Reason

/-- Promoted field of the embedded `corev1.Event` (Go field `Type`). -/
def EnhancedEvent.Type' (ev : EnhancedEvent) : String := ev.Event.Type'

/-- Promoted field of the embedded `corev1.Event`. -/
def EnhancedEvent.Count (ev : EnhancedEvent) : Int := ev.Event.Count

/-- Promoted field of the embedded `corev1.Event`. -/
def EnhancedEvent.Source (ev : EnhancedEvent) : EventSource := ev.Event.Source

/-- Promoted field of the embedded `corev1.ObjectReference`. -/
def EnhancedObjectReference.APIVersion (o : EnhancedObjectReference) : String :=
  o.ObjectReference.APIVersion

/-- Promoted field of the embedded `corev1.ObjectReference`. -/
def EnhancedObjectReference.Kind (o : EnhancedObjectReference) : String :=
  o.ObjectReference.Kind

/-- `exporter.Rule` (rules file, lines 21-50).  Go field `Type` is spelled
`Type'` here.  The precompiled-pattern maps model Go maps
`map[string]*regexp.Regexp`: a stored value may itself be nil (`none`). -/
structure Rule where
  Labels : List (String × String) := []
  Annotations : List (String × String) := []
  labelsPatterns : List (String × Option PatFun) := []
  annotationsPatterns : List (String × Option PatFun) := []
  apiVersionPattern : Option PatFun := none
  kindPattern : Option PatFun := none
  namespacePattern : Option PatFun := none
  reasonPattern : Option PatFun := none
  typePattern : Option PatFun := none
  componentPattern : Option PatFun := none
  hostPattern : Option PatFun := none
  messagePattern : Option PatFun := none
  receiverPattern : Option PatFun := none
  Message : String := ""
  APIVersion : String := ""
  Kind : String := ""
  Namespace : String := ""
  Reason : String := ""
  Type' : String := ""
  Component : String := ""
  Host : String := ""
  Receiver : String := ""
  MinCount : Int := 0

/-- `exporter.fieldMatcher` (rules file, lines 52-56). -/
structure fieldMatcher where
  pattern : Option PatFun
  ruleName : String
  eventName : String

/-- Body of the matcher loop in `Rule.MatchesEvent` (rules file, lines
79-94): empty rule fields are skipped; a precompiled pattern is used when
present, otherwise the runtime fallback `matchString`. -/
def fieldMatcher.check (eng : RegexEngine) (m : fieldMatcher) : Bool :=
  if m.ruleName = "" then true
  else
    match m.pattern with
    | some p => p m.eventName
    | none => matchString eng m.ruleName m.eventName

/-- Go map indexing `r.labelsPatterns[k]` on a `map[string]*regexp.Regexp`:
a missing key and a stored nil both yield nil. -/
def lookupPattern (pats : List (String × Option PatFun)) (k : String) : Option PatFun :=
  match pats.lookup k with
  | some p => p
  | none => none

/-- The regex match of one Labels (or Annotations) entry in
`Rule.MatchesEvent` (rules file, lines 102-110): the precompiled pattern
for the key when present, otherwise the runtime fallback on the raw regex
string. -/
def patternValueMatch (eng : RegexEngine) (pats : List (String × Option PatFun))
    (k rx v : String) : Bool :=
  match lookupPattern pats k with
  | some p => p v
  | none => matchString eng rx v

/-- One entry of the Labels (or Annotations) loop of `Rule.MatchesEvent`
(rules file, lines 97-136): the event map must contain the key, then the
precompiled pattern (or the runtime fallback on the raw regex string) must
match the value. -/
def mapEntryCheck (eng : RegexEngine) (evMap : List (String × String))
    (pats : List (String × Option PatFun)) (kv : String × String) : Bool :=
  match evMap.lookup kv.1 with
  | none => false
  | some val => patternValueMatch eng pats kv.1 kv.2 val

/-- The `matchers` list built by `Rule.MatchesEvent` (rules file, lines
68-77), in source order. -/
def ruleMatchers (r : Rule) (ev : EnhancedEvent) : List fieldMatcher := [
  ⟨r.messagePattern, r.Message, ev.Message⟩,
  ⟨r.apiVersionPattern, r.APIVersion, ev.InvolvedObject.APIVersion⟩,
  ⟨r.kindPattern, r.Kind, ev.InvolvedObject.Kind⟩,
  ⟨r.namespacePattern, r.Namespace, ev.Namespace⟩,
  ⟨r.reasonPattern, r.Reason, ev.Reason⟩,
  ⟨r.typePattern, r.Type', ev.Type'⟩,
  ⟨r.componentPattern, r.Component, ev.Source.Component⟩,
  ⟨r.hostPattern, r.Host, ev.Source.Host⟩]

/-- `Rule.MatchesEvent` (rules file, lines 66-145): the eight field
matchers, then Labels, then Annotations (each entry must be present and
match), then the MinCount gate `ev.Count < r.MinCount`. -/
def Rule.MatchesEvent (eng : RegexEngine) (r : Rule) (ev : EnhancedEvent) : Bool :=
  (ruleMatchers r ev).all (fieldMatcher.check eng) &&
    r.Labels.all (mapEntryCheck eng ev.InvolvedObject.Labels r.labelsPatterns) &&
    r.Annotations.all (mapEntryCheck eng ev.InvolvedObject.Annotations r.annotationsPatterns) &&
    !(ev.Count < r.MinCount)

/-- `exporter.Route` (spec section 3): a node of the routing tree with
match rules, drop rules and child routes.  Declared as an inductive because
Lean structures cannot be recursive. -/
inductive Route where
  | mk (Match : List Rule) (Drop : List Rule) (Routes : List Route)

/-- Field accessor for `Route`. -/
def Route.Match : Route → List Rule
  | .mk ms _ _ => ms

/-- Field accessor for `Route`. -/
def Route.Drop : Route → List Rule
  | .mk _ ds _ => ds

/-- Field accessor for `Route`. -/
def Route.Routes : Route → List Route
  | .mk _ _ rs => rs

mutual

/-- Modelled from the spec: `Route.ProcessEvent` (the route-engine file is
not among the provided sources; only its tests are).  Spec section 4.C: at
each node the drop rules are tried first and a match terminates the whole
subtree; then every matching rule in `Match` dispatches the event to its
`Receiver` via the registry; then every child route is processed
recursively regardless of whether a match rule fired.  The registry is
modelled by the returned list of receiver names, in dispatch order. -/
def Route.ProcessEvent (eng : RegexEngine) : Route → EnhancedEvent → List String
  | .mk ms ds rs, ev =>
    if ds.any (fun d => d.MatchesEvent eng ev) then []
    else
      (ms.filter (fun m => m.MatchesEvent eng ev)).map Rule.Receiver
        ++ processRoutes eng rs ev

/-- Modelled from the spec: recursive processing of the child routes of a
node, in config order (spec section 4.C, step 3). -/
def processRoutes (eng : RegexEngine) : List Route → EnhancedEvent → List String
  | [], _ => []
  | r :: rest, ev => Route.ProcessEvent eng r ev ++ processRoutes eng rest ev

end

/-! ### Config (`pkg/exporter/config.go`) -/

/-- `DefaultCacheSize` (config.go line 18). -/
def DefaultCacheSize : Int := 1024

/-- `DefaultMappingCacheSize = DefaultCacheSize / 4` (config.go line 19). -/
def DefaultMappingCacheSize : Int := 256

/-- `maxCacheTTL = 30 * 24 * time.Hour` in nanoseconds (config.go line 21);
durations are modelled as `Int` nanoseconds. -/
def maxCacheTTL : Int := 2592000000000000

/-- `defaultCacheTTL.String()` for `12 * time.Hour` (config.go lines 20,
107): Go renders it as `12h0m0s`. -/
def defaultCacheTTLString : String := "12h0m0s"

/-- Errors returned by `Config.Validate` and its helpers, modelled
structurally: the regexp-compile errors carry the offending pattern (Go's
`regexp.Compile` error text names the expression, and `compilePatternMap`
additionally wraps the map key). -/
inductive ConfigErr where
  | bothTimeouts
  | ttlParse (ttl : String)
  | ttlNonPositive
  | ttlTooLarge
  | badMetricsName
  | metricsRegexFailed
  | badPattern (pattern : String)
  | badMapPattern (key pattern : String)
deriving DecidableEq

/-- The pattern string named by a regexp-compile error, if the error is
one. -/
def ConfigErr.errPattern : ConfigErr → Option String
  | .badPattern p => some p
  | .badMapPattern _ p => some p
  | _ => none

/-- `exporter.Config` (config.go lines 24-70), restricted to the validated
fields.  `Receivers` and `LeaderElection` are carried opaquely by the real
code and are omitted; `KubeQPS` is a `float32` in Go and is modelled as a
rational (no claim depends on float rounding); integer fields are `Int`;
the parsed `cacheTTLDuration` is `Int` nanoseconds. -/
structure Config where
  LogLevel : String := ""
  LogFormat : String := ""
  ClusterName : String := ""
  Namespace : String := ""
  MetricsNamePrefixField : String := ""
  CacheTTL : String := ""
  Route : Route := .mk [] [] []
  ThrottlePeriod : Int := 0
  MaxEventAgeSeconds : Int := 0
  KubeBurst : Int := 0
  CacheSize : Int := 0
  MappingCacheSize : Int := 0
  cacheTTLDuration : Int := 0
  KubeQPS : Rat := 0
  OmitLookup : Bool := false

/-- Go `strconv.Atoi`: optional sign, at least one decimal digit, nothing
else, and the value must fit in a signed 64-bit int (Atoi returns an error
on any other input, including overflow). -/
def atoi (s : String) : Option Int :=
  match s.toList with
  | [] => none
  | c :: rest =>
    let signed : Int × List Char :=
      if c = '+' then (1, rest) else if c = '-' then (-1, rest) else (1, c :: rest)
    if signed.2 = [] then none
    else if signed.2.all Char.isDigit then
      let n : Int := signed.1 * (signed.2.foldl (fun acc d => acc * 10 + (d.toNat - '0'.toNat)) 0 : Nat)
      if -(2 ^ 63) ≤ n ∧ n ≤ 2 ^ 63 - 1 then some n else none
    else none

/-- First block of `Config.SetDefaults` (config.go lines 73-76): a zero
`CacheSize` becomes the default 1024. -/
def setCacheSizeDefault (c : Config) : Config :=
  if c.CacheSize = 0 then { c with CacheSize := DefaultCacheSize } else c

/-- Second block of `Config.SetDefaults` (config.go lines 78-94): a
positive config value wins; otherwise a positive integer in the
`MAPPING_CACHE_SIZE` environment variable (`env` is
`os.LookupEnv("MAPPING_CACHE_SIZE")`) is used; an invalid env value only
logs the `invalid MAPPING_CACHE_SIZE value` warning (recorded in the
returned `Bool`) and leaves the field unchanged; with no env variable the
default `max(256, CacheSize/4)` applies. -/
def setMappingCacheSizeDefault (env : Option String) (c : Config) : Config × Bool :=
  if c.MappingCacheSize > 0 then (c, false)
  else
    match env with
    | some v =>
      match atoi v with
      | some parsed =>
        if parsed > 0 then ({ c with MappingCacheSize := parsed }, false)
        else (c, true)
      | none => (c, true)
    | none =>
      ({ c with MappingCacheSize := max DefaultMappingCacheSize (Int.tdiv c.CacheSize 4) },
        false)

/-- Last blocks of `Config.SetDefaults` (config.go lines 96-109):
`rest.DefaultBurst = 10`, `rest.DefaultQPS = 5`, and the 12h default
cache TTL. -/
def setTailDefaults (c : Config) : Config :=
  let c := if c.KubeBurst = 0 then { c with KubeBurst := 10 } else c
  let c := if c.KubeQPS = 0 then { c with KubeQPS := 5 } else c
  if c.CacheTTL = "" then { c with CacheTTL := defaultCacheTTLString } else c

/-- `Config.SetDefaults` (config.go lines 72-110), the blocks in source
order; the `Bool` records whether the invalid-env warning was logged. -/
def Config.SetDefaults (env : Option String) (c : Config) : Config × Bool :=
  let step := setMappingCacheSizeDefault env (setCacheSizeDefault c)
  (setTailDefaults step.1, step.2)

/-- `Config.validateMaxEventAgeSeconds` (config.go lines 142-165): both
`ThrottlePeriod` and `MaxEventAgeSeconds` set is an error; a set
`ThrottlePeriod` is promoted; a still-zero `MaxEventAgeSeconds` defaults
to 5. -/
def Config.validateMaxEventAgeSeconds (c : Config) : Except ConfigErr Config :=
  if c.ThrottlePeriod ≠ 0 ∧ c.MaxEventAgeSeconds ≠ 0 then .error .bothTimeouts
  else
    let c := if c.ThrottlePeriod ≠ 0 then { c with MaxEventAgeSeconds := c.ThrottlePeriod } else c
    if c.MaxEventAgeSeconds = 0 then .ok { c with MaxEventAgeSeconds := 5 }
    else .ok c

/-- `Config.validateCacheTTL` (config.go lines 186-209).  Go's
`time.ParseDuration` is abstracted as the parameter `parseDur` (result in
`Int` nanoseconds, `none` on a parse error). -/
def Config.validateCacheTTL (parseDur : String → Option Int) (c : Config) :
    Except ConfigErr Config :=
  let c := if c.CacheTTL = "" then { c with CacheTTL := defaultCacheTTLString } else c
  match parseDur c.CacheTTL with
  | none => .error (.ttlParse c.CacheTTL)
  | some parsed =>
    if parsed ≤ 0 then .error .ttlNonPositive
    else if parsed > maxCacheTTL then .error .ttlTooLarge
    else .ok { c with cacheTTLDuration := parsed }

/-- `Config.validateDefaults` (config.go lines 132-140). -/
def Config.validateDefaults (parseDur : String → Option Int) (c : Config) :
    Except ConfigErr Config :=
  match c.validateMaxEventAgeSeconds with
  | .error e => .error e
  | .ok c => c.validateCacheTTL parseDur

/-- `Config.validateMetricsNamePrefix` (config.go lines 167-184): a
non-empty prefix must match `^[a-zA-Z][a-zA-Z0-9_:]*_$` (checked with
`regexp.MatchString`, whose compile error is propagated); the config is
not modified. -/
def Config.validateMetricsNamePrefixField (eng : RegexEngine) (c : Config) :
    Except ConfigErr Config :=
  if c.MetricsNamePrefixField ≠ "" then
    match eng.compile "^[a-zA-Z][a-zA-Z0-9_:]*_$" with
    | none => .error .metricsRegexFailed
    | some f => if f c.MetricsNamePrefixField then .ok c else .error .badMetricsName
  else .ok c

/-- `compilePattern` (config.go lines 216-221): empty patterns yield a nil
compiled regex; otherwise `regexp.Compile`, whose error names the
pattern. -/
def compilePattern (eng : RegexEngine) (pattern : String) :
    Except ConfigErr (Option PatFun) :=
  if pattern = "" then .ok none
  else
    match eng.compile pattern with
    | some f => .ok (some f)
    | none => .error (.badPattern pattern)

/-- `compilePatternMap` (config.go lines 224-238): compiles every entry, in
order, wrapping a failure with the offending key (an empty map yields the
nil map, which is modelled by the same empty list). -/
def compilePatternMap (eng : RegexEngine) :
    List (String × String) → Except ConfigErr (List (String × Option PatFun))
  | [] => .ok []
  | (k, v) :: rest =>
    match compilePattern eng v with
    | .error _ => .error (.badMapPattern k v)
    | .ok re =>
      match compilePatternMap eng rest with
      | .error e => .error e
      | .ok rest' => .ok ((k, re) :: rest')

/-- `Config.preCompilePatternsHelper` (config.go lines 241-289): populates
every precompiled-pattern field of a rule, in source order, propagating
the first failure. -/
def preCompilePatternsHelper (eng : RegexEngine) (r : Rule) : Except ConfigErr Rule :=
  match compilePattern eng r.APIVersion with
  | .error e => .error e
  | .ok apiVersionPat =>
  match compilePattern eng r.Kind with
  | .error e => .error e
  | .ok kindPat =>
  match compilePattern eng r.Namespace with
  | .error e => .error e
  | .ok namespacePat =>
  match compilePattern eng r.Reason with
  | .error e => .error e
  | .ok reasonPat =>
  match compilePattern eng r.Type' with
  | .error e => .error e
  | .ok typePat =>
  match compilePattern eng r.Component with
  | .error e => .error e
  | .ok componentPat =>
  match compilePattern eng r.Host with
  | .error e => .error e
  | .ok hostPat =>
  match compilePattern eng r.Message with
  | .error e => .error e
  | .ok messagePat =>
  match compilePattern eng r.Receiver with
  | .error e => .error e
  | .ok receiverPat =>
  match compilePatternMap eng r.Labels with
  | .error e => .error e
  | .ok labelsPats =>
  match compilePatternMap eng r.Annotations with
  | .error e => .error e
  | .ok annotationsPats =>
  .ok { r with
    apiVersionPattern := apiVersionPat
    kindPattern := kindPat
    namespacePattern := namespacePat
    reasonPattern := reasonPat
    typePattern := typePat
    componentPattern := componentPat
    hostPattern := hostPat
    messagePattern := messagePat
    receiverPattern := receiverPat
    labelsPatterns := labelsPats
    annotationsPatterns := annotationsPats }

/-- Compiles a list of rules in order (the `Drop` and `Match` loops of
`Config.preCompileRoute`). -/
def preCompileRules (eng : RegexEngine) : List Rule → Except ConfigErr (List Rule)
  | [] => .ok []
  | r :: rest =>
    match preCompilePatternsHelper eng r with
    | .error e => .error e
    | .ok r' =>
      match preCompileRules eng rest with
      | .error e => .error e
      | .ok rest' => .ok (r' :: rest')

mutual

/-- `Config.preCompileRoute` (config.go lines 292-313): compiles the Drop
rules, then the Match rules, then recurses into the child routes. -/
def preCompileRoute (eng : RegexEngine) : Route → Except ConfigErr Route
  | .mk ms ds rs =>
    match preCompileRules eng ds with
    | .error e => .error e
    | .ok ds' =>
      match preCompileRules eng ms with
      | .error e => .error e
      | .ok ms' =>
        match preCompileRoutes eng rs with
        | .error e => .error e
        | .ok rs' => .ok (.mk ms' ds' rs')

/-- The recursive loop over nested routes in `Config.preCompileRoute`. -/
def preCompileRoutes (eng : RegexEngine) : List Route → Except ConfigErr (List Route)
  | [] => .ok []
  | r :: rest =>
    match preCompileRoute eng r with
    | .error e => .error e
    | .ok r' =>
      match preCompileRoutes eng rest with
      | .error e => .error e
      | .ok rest' => .ok (r' :: rest')

end

/-- `Config.PreCompilePatterns` (config.go lines 315-317). -/
def Config.PreCompilePatterns (eng : RegexEngine) (c : Config) : Except ConfigErr Config :=
  match preCompileRoute eng c.Route with
  | .error e => .error e
  | .ok rt => .ok { c with Route := rt }

/-- `Config.Validate` (config.go lines 112-130): defaults validation, then
the metrics-name check, then regex precompilation. -/
def Config.Validate (eng : RegexEngine) (parseDur : String → Option Int) (c : Config) :
    Except ConfigErr Config :=
  match c.validateDefaults parseDur with
  | .error e => .error e
  | .ok c₁ =>
    match c₁.validateMetricsNamePrefixField eng with
    | .error e => .error e
    | .ok c₂ => c₂.PreCompilePatterns eng

mutual

/-- Every rule reachable from a route: its Drop list, its Match list, and,
recursively, the rules of every nested route. -/
def Route.allRules : Route → List Rule
  | .mk ms ds rs => ds ++ ms ++ allRulesList rs

/-- The rules reachable from a list of routes. -/
def allRulesList : List Route → List Rule
  | [] => []
  | r :: rest => r.allRules ++ allRulesList rest

end

/-- Every regex string carried by a rule: the nine string fields and the
values of the Labels and Annotations maps. -/
def rulePatternStrings (r : Rule) : List String :=
  [r.APIVersion, r.Kind, r.Namespace, r.Reason, r.Type', r.Component, r.Host,
    r.Message, r.Receiver] ++ r.Labels.map Prod.snd ++ r.Annotations.map Prod.snd

/-- The compiled-pattern invariant of a rule: every non-empty regex string
field has a non-null compiled pattern and every empty one a nil pattern;
the Labels and Annotations pattern maps bind exactly the keys of the
corresponding string maps, entry by entry, with non-null patterns exactly
for non-empty regex strings. -/
def patternsOk (r : Rule) : Prop :=
  (r.apiVersionPattern.isSome ↔ r.APIVersion ≠ "") ∧
  (r.kindPattern.isSome ↔ r.Kind ≠ "") ∧
  (r.namespacePattern.isSome ↔ r.Namespace ≠ "") ∧
  (r.reasonPattern.isSome ↔ r.Reason ≠ "") ∧
  (r.typePattern.isSome ↔ r.Type' ≠ "") ∧
  (r.componentPattern.isSome ↔ r.Component ≠ "") ∧
  (r.hostPattern.isSome ↔ r.Host ≠ "") ∧
  (r.messagePattern.isSome ↔ r.Message ≠ "") ∧
  (r.receiverPattern.isSome ↔ r.Receiver ≠ "") ∧
  List.Forall₂ (fun (kv : String × String) (kp : String × Option PatFun) =>
    kp.1 = kv.1 ∧ (kp.2.isSome ↔ kv.2 ≠ "")) r.Labels r.labelsPatterns ∧
  List.Forall₂ (fun (kv : String × String) (kp : String × Option PatFun) =>
    kp.1 = kv.1 ∧ (kp.2.isSome ↔ kv.2 ≠ "")) r.Annotations r.annotationsPatterns

/-! ### Metadata cache (`pkg/kube/objects.go`) -/

/-- `kube.objectMetadata` (objects.go lines 36-41). -/
structure objectMetadata where
  Annotations : List (String × String) := []
  Labels : List (String × String) := []
  OwnerReferences : List OwnerReference := []
  Deleted : Bool := false
deriving DecidableEq

/-- `kube.cachedMetadata` (objects.go lines 31-34); `fetchedAt` is an
instant (`Int`). -/
structure cachedMetadata where
  fetchedAt : Int
  metadata : objectMetadata
deriving DecidableEq

/-- `schema.GroupVersionResource`. -/
structure GroupVersionResource where
  Group : String := ""
  Version : String := ""
  Resource : String := ""
deriving DecidableEq

/-- An error from the apiserver or the REST mapper; `notFound` models
`apierrors.IsNotFound`. -/
structure KubeErr where
  notFound : Bool := false
  msg : String := ""
deriving DecidableEq

/-- The unstructured object returned by the dynamic client's `Get`,
restricted to the fields read (objects.go lines 124-132). -/
structure FetchedObject where
  Labels : List (String × String) := []
  Annotations : List (String × String) := []
  OwnerReferences : List OwnerReference := []
  DeletionTimestamp : Option Int := none
deriving DecidableEq

/-- The external collaborators of the cache: `restMapping group version
kind` bundles `restmapper.GetAPIGroupResources` + `RESTMapping` (objects.go
lines 96-108), and `apiGet gvr namespace name` the dynamic client `Get`
(objects.go lines 113-116). -/
structure KubeEnv where
  restMapping : String → String → String → Except KubeErr GroupVersionResource
  apiGet : GroupVersionResource → String → String → Except KubeErr FetchedObject

/-- The mutable state of `kube.objectMetadataCache` (objects.go lines
23-27).  The two-queue LRU caches are modelled as maps (association lists
with first-match lookup); eviction by capacity does not occur in the
short call sequences the claims quantify over. -/
structure CacheState where
  cache : List (String × cachedMetadata) := []
  mappingCache : List (String × GroupVersionResource) := []
  ttl : Int := 0
deriving DecidableEq

/-- The metrics counters of `metrics.Store` touched by the cache and the
watcher. -/
structure Metrics where
  readCacheHits : Nat := 0
  mappingCacheHits : Nat := 0
  mappingReadRequests : Nat := 0
  readRequests : Nat := 0
  eventsProcessed : Nat := 0
  eventsDiscarded : Nat := 0
deriving DecidableEq

/-- Map removal (the `Remove` of the LRU cache): drop every binding of the
key. -/
def mapRemove (k : String) (l : List (String × α)) : List (String × α) :=
  l.filter (fun p => !(p.1 == k))

/-- Map insertion (the `Add` of the LRU cache): bind the key, replacing any
previous binding. -/
def mapAdd (k : String) (v : α) (l : List (String × α)) : List (String × α) :=
  (k, v) :: mapRemove k l

/-- Splitting a character list at every `/` (the semantics of Go
`strings.Split(s, "/")`): the accumulator carries the current token in
reverse. -/
def splitOnSlashAux : List Char → List Char → List String
  | [], acc => [String.mk acc.reverse]
  | c :: rest, acc =>
    if c = '/' then String.mk acc.reverse :: splitOnSlashAux rest []
    else splitOnSlashAux rest (c :: acc)

/-- Go `strings.Split(s, "/")`: every slash separates tokens; the empty
string yields `[""]`. -/
def splitOnSlash (s : String) : List String := splitOnSlashAux s.toList []

/-- `strings.Split(reference.APIVersion, "/")` followed by the
group/version selection of objects.go lines 77-85: one token is the core
group (empty group, the token as version); otherwise the first two tokens
are group and version.  `splitOnSlash` never returns `[]`, so the `[]` arm
is dead. -/
def parseGroupVersion (apiVersion : String) : String × String :=
  match splitOnSlash apiVersion with
  | [v] => ("", v)
  | g :: v :: _ => (g, v)
  | [] => ("", "")

/-- The mapping-cache key `group + "|" + version + "|" + kind` (objects.go
line 87). -/
def mappingKeyOf (ref : ObjectReference) : String :=
  (parseGroupVersion ref.APIVersion).1 ++ "|" ++ (parseGroupVersion ref.APIVersion).2 ++ "|" ++ ref.Kind

/-- The live-GET tail of `getObjectMetadata` (objects.go lines 113-135):
`KubeApiReadRequests` is incremented right after the GET, error or not; on
success the metadata is built (Deleted iff a deletion timestamp is
carried) and stored under the UID with `fetchedAt = now`; on failure
nothing is cached and the error is returned. -/
def apiGetStep (env : KubeEnv) (now : Int) (ref : ObjectReference)
    (gvr : GroupVersionResource) (st : CacheState) (m : Metrics) :
    Except KubeErr objectMetadata × CacheState × Metrics :=
  match env.apiGet gvr ref.Namespace ref.Name with
  | .error e => (.error e, st, { m with readRequests := m.readRequests + 1 })
  | .ok item =>
    let om : objectMetadata :=
      { OwnerReferences := item.OwnerReferences
        Labels := item.Labels
        Annotations := item.Annotations
        Deleted := item.DeletionTimestamp.isSome }
    (.ok om, { st with cache := mapAdd ref.UID ⟨now, om⟩ st.cache },
      { m with readRequests := m.readRequests + 1 })

/-- The mapping-resolution step of `getObjectMetadata` (objects.go lines
87-111) followed by `apiGetStep`: a mapping-cache hit increments
`KubeApiMappingCacheHits`; a miss resolves the mapping through the
collaborators (an error is returned as-is, nothing cached), increments
`KubeApiMappingReadRequests` and stores the resolved resource. -/
def fetchObjectMetadata (env : KubeEnv) (now : Int) (ref : ObjectReference)
    (st : CacheState) (m : Metrics) :
    Except KubeErr objectMetadata × CacheState × Metrics :=
  match st.mappingCache.lookup (mappingKeyOf ref) with
  | some gvr =>
    apiGetStep env now ref gvr st { m with mappingCacheHits := m.mappingCacheHits + 1 }
  | none =>
    match env.restMapping (parseGroupVersion ref.APIVersion).1
        (parseGroupVersion ref.APIVersion).2 ref.Kind with
    | .error e => (.error e, st, m)
    | .ok gvr =>
      apiGetStep env now ref gvr
        { st with mappingCache := mapAdd (mappingKeyOf ref) gvr st.mappingCache }
        { m with mappingReadRequests := m.mappingReadRequests + 1 }

/-- `objectMetadataCache.getObjectMetadata` (objects.go lines 67-136): the
cache key is the UID alone; a cached entry is fresh when
`now - fetchedAt < ttl || ttl <= 0` (then `KubeApiReadCacheHits` is
incremented and the entry returned); a stale entry is removed and the
fetch path taken. -/
def getObjectMetadata (env : KubeEnv) (now : Int) (ref : ObjectReference)
    (st : CacheState) (m : Metrics) :
    Except KubeErr objectMetadata × CacheState × Metrics :=
  let cacheKey := ref.UID
  match st.cache.lookup cacheKey with
  | some val =>
    if now - val.fetchedAt < st.ttl ∨ st.ttl ≤ 0 then
      (.ok val.metadata, st, { m with readCacheHits := m.readCacheHits + 1 })
    else
      fetchObjectMetadata env now ref { st with cache := mapRemove cacheKey st.cache } m
  | none => fetchObjectMetadata env now ref st m

/-! ### Event watcher (`pkg/kube/watcher.go`) -/

/-- The effective timestamp of an event (watcher.go lines 94-102):
`Series.LastObservedTime` when the series is present with a non-zero
time, else a non-zero `LastTimestamp`, else `EventTime`. -/
def effectiveTimestamp (e : Event) : Int :=
  match e.Series with
  | some s =>
    if s.LastObservedTime ≠ 0 then s.LastObservedTime
    else if e.LastTimestamp ≠ 0 then e.LastTimestamp
    else e.EventTime
  | none =>
    if e.LastTimestamp ≠ 0 then e.LastTimestamp
    else e.EventTime

/-- Result of the age gate: whether the event is discarded, and whether
the warning was logged and `EventsDiscarded` incremented. -/
structure DiscardCheck where
  discarded : Bool
  warned : Bool
deriving DecidableEq

/-- `eventWatcher.isEventDiscarded` (watcher.go lines 93-118): discard when
`now - timestamp > maxEventAge`; warn and count only when the timestamp is
after the startup instant. -/
def isEventDiscarded (now startUpTime maxEventAge : Int) (e : Event) : DiscardCheck :=
  let timestamp := effectiveTimestamp e
  if now - timestamp > maxEventAge then
    { discarded := true, warned := timestamp > startUpTime }
  else
    { discarded := false, warned := false }

/-- `eventWatcher.onEvent` (watcher.go lines 120-161): a discarded event is
dropped before anything else (the handler `fn` is never called, so no
receiver sees it); otherwise the event is deep-copied, `ManagedFields`
cleared, and the enhanced event built: with `omitLookup` only the bare
reference; otherwise the metadata lookup fills labels, annotations, owner
references and Deleted, a not-found error sets Deleted on the bare
reference, and any other error forwards the bare reference unchanged.
The forwarded event (the argument of `fn`) is the first component,
`none` when nothing is forwarded. -/
def onEvent (env : KubeEnv) (now startUpTime maxEventAge : Int) (omitLookup : Bool)
    (e : Event) (st : CacheState) (m : Metrics) :
    Option EnhancedEvent × CacheState × Metrics :=
  let dc := isEventDiscarded now startUpTime maxEventAge e
  if dc.discarded then
    (none, st, { m with eventsDiscarded := m.eventsDiscarded + (if dc.warned then 1 else 0) })
  else
    let m := { m with eventsProcessed := m.eventsProcessed + 1 }
    let ev : EnhancedEvent :=
      { Event := { e with ManagedFields := [] }
        InvolvedObject := { ObjectReference := e.InvolvedObject } }
    if omitLookup then
      (some ev, st, m)
    else
      match getObjectMetadata env now e.InvolvedObject st m with
      | (.error err, st', m') =>
        let ev :=
          if err.notFound then
            { ev with InvolvedObject := { ev.InvolvedObject with Deleted := true } }
          else ev
        (some ev, st', m')
      | (.ok om, st', m') =>
        (some { ev with InvolvedObject :=
          { ObjectReference := e.InvolvedObject
            Labels := om.Labels
            Annotations := om.Annotations
            OwnerReferences := om.OwnerReferences
            Deleted := om.Deleted } }, st', m')

/-! ### Concrete regex engines used for evaluation

The theorems below are quantified over every `RegexEngine`; these small
executable engines let the witnesses evaluate the definitions at concrete
inputs.  `engLit` treats a pattern as a literal and implements the
partial-match (substring) semantics of `regexp.MatchString`; on the
pattern/string pairs appearing in the concrete inputs below it agrees with
Go's regexp.  `engFail` rejects every pattern, like a compiler facing an
invalid regex. -/

/-- Executable substring test used by the concrete engines. -/
def charsContain (s pat : List Char) : Bool :=
  match s with
  | [] => pat.isEmpty
  | _ :: rest => pat.isPrefixOf s || charsContain rest pat

/-- Literal-substring engine: the pattern matches any string containing
it. -/
def engLit : RegexEngine :=
  ⟨fun p => some (fun s => charsContain s.toList p.toList)⟩

/-- Engine on which every pattern fails to compile. -/
def engFail : RegexEngine := ⟨fun _ => none⟩

/-- Engine for replaying the routing tests: like `engLit`, except that the
pattern `kube-*` (regex: `kube` then any number of dashes, matched
partially) matches any string containing `kube`, as Go's regexp does. -/
def testRegexEngine : RegexEngine :=
  ⟨fun p => some (fun s => charsContain s.toList (if p = "kube-*" then "kube" else p).toList)⟩

/-! ### Concrete instances used by the witnesses

These mirror the fixtures of `objects_test.go` (`newMetadataTestEnv`): an
apiserver that knows `apps/v1 Deployment` and serves one object labelled
`test: test`, and two references differing only in `ResourceVersion`. -/

/-- A healthy apiserver environment. -/
def envW : KubeEnv :=
  ⟨fun g v _ => .ok ⟨g, v, "deployments"⟩,
   fun _ _ _ => .ok { Labels := [("test", "test")] }⟩

/-- An apiserver environment whose GET always reports not-found. -/
def envNF : KubeEnv :=
  ⟨fun g v _ => .ok ⟨g, v, "deployments"⟩,
   fun _ _ _ => .error { notFound := true }⟩

/-- The test reference (`objects_test.go` lines 211-218). -/
def rW1 : ObjectReference :=
  { APIVersion := "apps/v1", Kind := "Deployment", Namespace := "default",
    Name := "test-deploy", UID := "test-uid", ResourceVersion := "1" }

/-- The same reference at a later ResourceVersion. -/
def rW2 : ObjectReference := { rW1 with ResourceVersion := "2" }

/-- The metadata served by `envW`. -/
def omW : objectMetadata := { Labels := [("test", "test")] }

/-- Cache state after one successful fetch of `rW1` at time 0 with TTL 10. -/
def stW1 : CacheState :=
  { cache := [("test-uid", ⟨0, omW⟩)],
    mappingCache := [("apps|v1|Deployment", ⟨"apps", "v1", "deployments"⟩)],
    ttl := 10 }

/-- Metrics after one successful fetch through an empty cache. -/
def mW1 : Metrics := { mappingReadRequests := 1, readRequests := 1 }

/-- A cache state whose mapping cache already knows the test kind. -/
def stMap : CacheState :=
  { mappingCache := [("apps|v1|Deployment", ⟨"apps", "v1", "deployments"⟩)], ttl := 10 }

/-- A raw event about the test reference, with all timestamps zero. -/
def eNF : Event := { InvolvedObject := rW1 }

/-- An engine on which every pattern compiles except `[bad`. -/
def engAllButBad : RegexEngine :=
  ⟨fun p => if p = "[bad" then none else some (fun _ => true)⟩

/-- A rule with an invalid apiVersion regex (compare
`TestValidate_FailsOnInvalidRegexPattern`). -/
def ruleBad : Rule := { APIVersion := "[bad" }

/-- A config whose route drops on the invalid rule. -/
def cfgBad : Config := { Route := .mk [] [ruleBad] [] }

/-- A duration parser that accepts everything as one nanosecond. -/
def parseDurOne : String → Option Int := fun _ => some 1

/-- `cfgBad` after `validateDefaults` with `parseDurOne`. -/
def cfgBadDefaults : Config :=
  { cfgBad with
    MaxEventAgeSeconds := 5
    CacheTTL := defaultCacheTTLString
    cacheTTLDuration := 1 }

end EventExporter

namespace EventExporter

/-! ### Helper lemmas -/

/-- A matcher whose pattern is nil, whose rule string is non-empty and does
not compile, fails. -/
theorem check_runtime_fail (eng : RegexEngine) (n e : String) (hn : n ≠ "")
    (hc : eng.compile n = none) :
    fieldMatcher.check eng ⟨none, n, e⟩ = false := by
  simp [fieldMatcher.check, matchString, hn, hc]

/-- If the field-matcher loop fails, the rule does not match. -/
theorem matchesEvent_false_of_matchers (eng : RegexEngine) (r : Rule) (ev : EnhancedEvent)
    (h : (ruleMatchers r ev).all (fieldMatcher.check eng) = false) :
    Rule.MatchesEvent eng r ev = false := by
  simp [Rule.MatchesEvent, h]

/-- If the Labels loop fails, the rule does not match. -/
theorem matchesEvent_false_of_labels (eng : RegexEngine) (r : Rule) (ev : EnhancedEvent)
    (h : r.Labels.all (mapEntryCheck eng ev.InvolvedObject.Labels r.labelsPatterns) = false) :
    Rule.MatchesEvent eng r ev = false := by
  simp [Rule.MatchesEvent, h]

/-- If the Annotations loop fails, the rule does not match. -/
theorem matchesEvent_false_of_annots (eng : RegexEngine) (r : Rule) (ev : EnhancedEvent)
    (h : r.Annotations.all
      (mapEntryCheck eng ev.InvolvedObject.Annotations r.annotationsPatterns) = false) :
    Rule.MatchesEvent eng r ev = false := by
  simp [Rule.MatchesEvent, h]

/-! ### C9 -/

/-- C9: the empty rule — every regex string field empty, Labels and
Annotations empty, MinCount 0 — matches every enhanced event (events carry
`Count ≥ 1` per the data model; `0 ≤ Count` suffices). -/
theorem emptyRule_matches_every_event (eng : RegexEngine) (ev : EnhancedEvent)
    (hcount : 0 ≤ ev.Count) :
    Rule.MatchesEvent eng {} ev = true := by
  simp only [EnhancedEvent.Count] at hcount
  simp [Rule.MatchesEvent, ruleMatchers, fieldMatcher.check, EnhancedEvent.Count]
  omega

/-- Witness for C9 at a concrete event. -/
theorem emptyRule_matches_every_event_witness :
    0 ≤ (EnhancedEvent.Count { Event := { Count := 1 } }) ∧
      Rule.MatchesEvent engFail {} { Event := { Count := 1 } } = true :=
  ⟨by decide, emptyRule_matches_every_event engFail { Event := { Count := 1 } } (by decide)⟩

/-! ### C2 -/

/-- C2: with a non-empty Labels (or Annotations) map, `MatchesEvent` is true
only if every key of the map exists on the involved object and its regex
matches the value; a missing key alone forces a non-match (even if the
regex would have matched the empty string), and all entries are AND'ed. -/
theorem labels_required_and_conjoined (eng : RegexEngine) (r : Rule) (ev : EnhancedEvent) :
    (Rule.MatchesEvent eng r ev = true →
      (∀ kv ∈ r.Labels, ∃ v, ev.InvolvedObject.Labels.lookup kv.1 = some v ∧
        patternValueMatch eng r.labelsPatterns kv.1 kv.2 v = true) ∧
      (∀ kv ∈ r.Annotations, ∃ v, ev.InvolvedObject.Annotations.lookup kv.1 = some v ∧
        patternValueMatch eng r.annotationsPatterns kv.1 kv.2 v = true)) ∧
    ((∃ kv ∈ r.Labels, ev.InvolvedObject.Labels.lookup kv.1 = none) →
      Rule.MatchesEvent eng r ev = false) ∧
    ((∃ kv ∈ r.Annotations, ev.InvolvedObject.Annotations.lookup kv.1 = none) →
      Rule.MatchesEvent eng r ev = false) := by
  have key : Rule.MatchesEvent eng r ev = true →
      (∀ kv ∈ r.Labels, ∃ v, ev.InvolvedObject.Labels.lookup kv.1 = some v ∧
        patternValueMatch eng r.labelsPatterns kv.1 kv.2 v = true) ∧
      (∀ kv ∈ r.Annotations, ∃ v, ev.InvolvedObject.Annotations.lookup kv.1 = some v ∧
        patternValueMatch eng r.annotationsPatterns kv.1 kv.2 v = true) := by
    intro h
    simp only [Rule.MatchesEvent, Bool.and_eq_true, List.all_eq_true] at h
    obtain ⟨⟨⟨-, hl⟩, ha⟩, -⟩ := h
    constructor
    · intro kv hkv
      have hc := hl kv hkv
      unfold mapEntryCheck at hc
      cases hlook : ev.InvolvedObject.Labels.lookup kv.1 with
      | none => rw [hlook] at hc; cases hc
      | some v => rw [hlook] at hc; exact ⟨v, rfl, hc⟩
    · intro kv hkv
      have hc := ha kv hkv
      unfold mapEntryCheck at hc
      cases hlook : ev.InvolvedObject.Annotations.lookup kv.1 with
      | none => rw [hlook] at hc; cases hc
      | some v => rw [hlook] at hc; exact ⟨v, rfl, hc⟩
  refine ⟨key, ?_, ?_⟩
  · rintro ⟨kv, hkv, hnone⟩
    cases hb : Rule.MatchesEvent eng r ev with
    | false => rfl
    | true =>
      obtain ⟨v, hv, -⟩ := (key hb).1 kv hkv
      rw [hnone] at hv
      cases hv
  · rintro ⟨kv, hkv, hnone⟩
    cases hb : Rule.MatchesEvent eng r ev with
    | false => rfl
    | true =>
      obtain ⟨v, hv, -⟩ := (key hb).2 kv hkv
      rw [hnone] at hv
      cases hv

/-- Witness for C2 at a concrete rule and event: a rule requiring label
`app` with regex matching the empty string fails against an object that
does not carry the label. -/
theorem labels_required_and_conjoined_witness :
    Rule.MatchesEvent engLit { Labels := [("app", "")] } {} = false :=
  (labels_required_and_conjoined engLit { Labels := [("app", "")] } {}).2.1
    ⟨("app", ""), by simp, by decide⟩

/-! ### C10 -/

/-- C10: `MatchesEvent` is total and never errors when validation was
bypassed: a field whose precompiled pattern is nil and whose non-empty
pattern string does not compile makes the rule match no event — the
fallback `matchString` swallows the compile error and returns false. -/
theorem runtime_fallback_swallows_compile_errors (eng : RegexEngine) (r : Rule)
    (ev : EnhancedEvent) :
    (r.messagePattern = none → r.Message ≠ "" → eng.compile r.Message = none →
      Rule.MatchesEvent eng r ev = false) ∧
    (r.apiVersionPattern = none → r.APIVersion ≠ "" → eng.compile r.APIVersion = none →
      Rule.MatchesEvent eng r ev = false) ∧
    (r.kindPattern = none → r.Kind ≠ "" → eng.compile r.Kind = none →
      Rule.MatchesEvent eng r ev = false) ∧
    (r.namespacePattern = none → r.Namespace ≠ "" → eng.compile r.Namespace = none →
      Rule.MatchesEvent eng r ev = false) ∧
    (r.reasonPattern = none → r.Reason ≠ "" → eng.compile r.Reason = none →
      Rule.MatchesEvent eng r ev = false) ∧
    (r.typePattern = none → r.Type' ≠ "" → eng.compile r.Type' = none →
      Rule.MatchesEvent eng r ev = false) ∧
    (r.componentPattern = none → r.Component ≠ "" → eng.compile r.Component = none →
      Rule.MatchesEvent eng r ev = false) ∧
    (r.hostPattern = none → r.Host ≠ "" → eng.compile r.Host = none →
      Rule.MatchesEvent eng r ev = false) ∧
    (∀ kv ∈ r.Labels, lookupPattern r.labelsPatterns kv.1 = none →
      eng.compile kv.2 = none → Rule.MatchesEvent eng r ev = false) ∧
    (∀ kv ∈ r.Annotations, lookupPattern r.annotationsPatterns kv.1 = none →
      eng.compile kv.2 = none → Rule.MatchesEvent eng r ev = false) := by
  refine ⟨?_, ?_, ?_, ?_, ?_, ?_, ?_, ?_, ?_, ?_⟩
  case _ =>
    intro h1 h2 h3
    refine matchesEvent_false_of_matchers eng r ev (List.all_eq_false.mpr
      ⟨⟨r.messagePattern, r.Message, ev.Message⟩, by simp [ruleMatchers], ?_⟩)
    rw [h1]; exact Bool.eq_false_iff.mp (check_runtime_fail eng _ _ h2 h3)
  case _ =>
    intro h1 h2 h3
    refine matchesEvent_false_of_matchers eng r ev (List.all_eq_false.mpr
      ⟨⟨r.apiVersionPattern, r.APIVersion, ev.InvolvedObject.APIVersion⟩,
        by simp [ruleMatchers], ?_⟩)
    rw [h1]; exact Bool.eq_false_iff.mp (check_runtime_fail eng _ _ h2 h3)
  case _ =>
    intro h1 h2 h3
    refine matchesEvent_false_of_matchers eng r ev (List.all_eq_false.mpr
      ⟨⟨r.kindPattern, r.Kind, ev.InvolvedObject.Kind⟩, by simp [ruleMatchers], ?_⟩)
    rw [h1]; exact Bool.eq_false_iff.mp (check_runtime_fail eng _ _ h2 h3)
  case _ =>
    intro h1 h2 h3
    refine matchesEvent_false_of_matchers eng r ev (List.all_eq_false.mpr
      ⟨⟨r.namespacePattern, r.Namespace, ev.Namespace⟩, by simp [ruleMatchers], ?_⟩)
    rw [h1]; exact Bool.eq_false_iff.mp (check_runtime_fail eng _ _ h2 h3)
  case _ =>
    intro h1 h2 h3
    refine matchesEvent_false_of_matchers eng r ev (List.all_eq_false.mpr
      ⟨⟨r.reasonPattern, r.Reason, ev.Reason⟩, by simp [ruleMatchers], ?_⟩)
    rw [h1]; exact Bool.eq_false_iff.mp (check_runtime_fail eng _ _ h2 h3)
  case _ =>
    intro h1 h2 h3
    refine matchesEvent_false_of_matchers eng r ev (List.all_eq_false.mpr
      ⟨⟨r.typePattern, r.Type', ev.Type'⟩, by simp [ruleMatchers], ?_⟩)
    rw [h1]; exact Bool.eq_false_iff.mp (check_runtime_fail eng _ _ h2 h3)
  case _ =>
    intro h1 h2 h3
    refine matchesEvent_false_of_matchers eng r ev (List.all_eq_false.mpr
      ⟨⟨r.componentPattern, r.Component, ev.Source.Component⟩, by simp [ruleMatchers], ?_⟩)
    rw [h1]; exact Bool.eq_false_iff.mp (check_runtime_fail eng _ _ h2 h3)
  case _ =>
    intro h1 h2 h3
    refine matchesEvent_false_of_matchers eng r ev (List.all_eq_false.mpr
      ⟨⟨r.hostPattern, r.Host, ev.Source.Host⟩, by simp [ruleMatchers], ?_⟩)
    rw [h1]; exact Bool.eq_false_iff.mp (check_runtime_fail eng _ _ h2 h3)
  case _ =>
    intro kv hkv h1 h2
    refine matchesEvent_false_of_labels eng r ev (List.all_eq_false.mpr ⟨kv, hkv, ?_⟩)
    unfold mapEntryCheck
    cases ev.InvolvedObject.Labels.lookup kv.1 with
    | none => simp
    | some v => simp [patternValueMatch, h1, matchString, h2]
  case _ =>
    intro kv hkv h1 h2
    refine matchesEvent_false_of_annots eng r ev (List.all_eq_false.mpr ⟨kv, hkv, ?_⟩)
    unfold mapEntryCheck
    cases ev.InvolvedObject.Annotations.lookup kv.1 with
    | none => simp
    | some v => simp [patternValueMatch, h1, matchString, h2]

/-- Witness for C10: a rule whose Message regex is invalid (nil pattern,
failing compiler) matches nothing. -/
theorem runtime_fallback_swallows_compile_errors_witness :
    Rule.MatchesEvent engFail { Message := "[bad" } {} = false :=
  (runtime_fallback_swallows_compile_errors engFail { Message := "[bad" } {}).1
    rfl (by decide) rfl

/-! ### C1 -/

/-- Membership in the concatenated dispatches of a list of child routes. -/
theorem mem_processRoutes (eng : RegexEngine) (ev : EnhancedEvent) :
    ∀ (rs : List Route) (x : String),
      x ∈ processRoutes eng rs ev ↔ ∃ c ∈ rs, x ∈ c.ProcessEvent eng ev := by
  intro rs x
  induction rs with
  | nil => simp [processRoutes]
  | cons r rest ih => simp [processRoutes, ih]

/-- C1: route processing is terminal on drop and unconditional on
children: a matching drop rule at a node suppresses every dispatch from
the node and its whole subtree; with no drop match, every matching rule in
the Match list dispatches to its receiver, and every dispatch of every
child route is kept, whether or not a match rule at this node fired. -/
theorem route_drop_terminal_children_unconditional (eng : RegexEngine) (rt : Route)
    (ev : EnhancedEvent) :
    ((∃ d ∈ rt.Drop, d.MatchesEvent eng ev = true) → rt.ProcessEvent eng ev = []) ∧
    ((∀ d ∈ rt.Drop, d.MatchesEvent eng ev = false) →
      (∀ m ∈ rt.Match, m.MatchesEvent eng ev = true →
        m.Receiver ∈ rt.ProcessEvent eng ev) ∧
      (∀ c ∈ rt.Routes, ∀ x ∈ c.ProcessEvent eng ev, x ∈ rt.ProcessEvent eng ev)) := by
  obtain ⟨ms, ds, rs⟩ := rt
  constructor
  · rintro ⟨d, hd, hmatch⟩
    simp only [Route.Drop] at hd
    simp only [Route.ProcessEvent]
    rw [if_pos]
    exact List.any_eq_true.mpr ⟨d, hd, hmatch⟩
  · intro hnone
    simp only [Route.Drop] at hnone
    simp only [Route.Match, Route.Routes]
    have hany : ds.any (fun d => d.MatchesEvent eng ev) = false :=
      List.any_eq_false.mpr (fun d hd => Bool.eq_false_iff.mp (hnone d hd))
    constructor
    · intro m hm hmatch
      simp only [Route.ProcessEvent, hany, Bool.false_eq_true, if_false]
      exact List.mem_append_left _
        (List.mem_map_of_mem Rule.Receiver (List.mem_filter.mpr ⟨hm, hmatch⟩))
    · intro c hc x hx
      simp only [Route.ProcessEvent, hany, Bool.false_eq_true, if_false]
      exact List.mem_append_right _ ((mem_processRoutes eng ev rs x).mpr ⟨c, hc, hx⟩)

/-- Witness for C1: a matching drop rule empties the dispatches of a
subtree that would otherwise dispatch. -/
theorem route_drop_terminal_children_unconditional_witness :
    Route.ProcessEvent engLit
      (.mk [{ Receiver := "osman" }] [{ Namespace := "kube-system" }]
        [.mk [{ Receiver := "any" }] [] []])
      { Event := { Namespace := "kube-system" } } = [] :=
  (route_drop_terminal_children_unconditional engLit
      (.mk [{ Receiver := "osman" }] [{ Namespace := "kube-system" }]
        [.mk [{ Receiver := "any" }] [] []])
      { Event := { Namespace := "kube-system" } }).1
    ⟨{ Namespace := "kube-system" }, List.mem_singleton.mpr rfl, by decide⟩

/-- Model validation against `TestSubSubRouteWithDrop` (route_test.go lines
168-196): with a drop of `kube-system` only in the grandchild, `osman`
receives the event and `any` does not. -/
theorem route_model_subSubRouteWithDrop :
    let rt : Route := .mk [{ Namespace := "kube-*" }] []
      [.mk [{ Receiver := "osman" }] []
        [.mk [{ Receiver := "any" }] [{ Namespace := "kube-system" }] []]]
    let ev : EnhancedEvent := { Event := { Namespace := "kube-system" } }
    "osman" ∈ rt.ProcessEvent testRegexEngine ev ∧
      "any" ∉ rt.ProcessEvent testRegexEngine ev := by
  decide

/-- Model validation against `Test_GHIssue51` (route_test.go lines
199-225): dropping `Normal` events does not stop the `Warning` event with
reason `FailedCreatePodContainer` from reaching `elastic`, and the event
with reason `FailedCreate` does not match the longer reason regex. -/
theorem route_model_ghIssue51 :
    let rt : Route := .mk [{ Reason := "FailedCreatePodContainer", Receiver := "elastic" }]
      [{ Type' := "Normal" }] []
    let ev1 : EnhancedEvent := { Event := { Type' := "Warning", Reason := "FailedCreatePodContainer" } }
    let ev2 : EnhancedEvent := { Event := { Type' := "Warning", Reason := "FailedCreate" } }
    "elastic" ∈ rt.ProcessEvent testRegexEngine ev1 ∧
      "elastic" ∉ rt.ProcessEvent testRegexEngine ev2 := by
  decide

/-! ### Cache lemmas -/

/-- Looking up a key just added finds the added entry. -/
theorem lookup_mapAdd_self {α : Type} (k : String) (v : α) (l : List (String × α)) :
    (mapAdd k v l).lookup k = some v := by
  simp [mapAdd, List.lookup]

/-- A successful GET step adds exactly the returned metadata under the UID
with `fetchedAt = now`, increments `KubeApiReadRequests` once, and touches
neither the TTL, the mapping cache, nor `KubeApiReadCacheHits`. -/
theorem apiGetStep_ok (env : KubeEnv) (now : Int) (ref : ObjectReference)
    (gvr : GroupVersionResource) (st : CacheState) (m : Metrics)
    (om : objectMetadata) (st' : CacheState) (m' : Metrics)
    (h : apiGetStep env now ref gvr st m = (.ok om, st', m')) :
    st' = { st with cache := mapAdd ref.UID ⟨now, om⟩ st.cache } ∧
      m' = { m with readRequests := m.readRequests + 1 } := by
  unfold apiGetStep at h
  cases hg : env.apiGet gvr ref.Namespace ref.Name with
  | error e => rw [hg] at h; cases h
  | ok item =>
    rw [hg] at h
    simp only [Prod.mk.injEq, Except.ok.injEq] at h
    obtain ⟨hom, hst, hm⟩ := h
    subst hom hst hm
    exact ⟨rfl, rfl⟩

/-- A failing GET step returns the GET error, adds nothing to the cache,
and still increments `KubeApiReadRequests`. -/
theorem apiGetStep_error (env : KubeEnv) (now : Int) (ref : ObjectReference)
    (gvr : GroupVersionResource) (st : CacheState) (m : Metrics)
    (e : KubeErr) (st' : CacheState) (m' : Metrics)
    (h : apiGetStep env now ref gvr st m = (.error e, st', m')) :
    env.apiGet gvr ref.Namespace ref.Name = .error e ∧ st' = st ∧
      m' = { m with readRequests := m.readRequests + 1 } := by
  unfold apiGetStep at h
  cases hg : env.apiGet gvr ref.Namespace ref.Name with
  | error e₀ =>
    rw [hg] at h
    simp only [Prod.mk.injEq, Except.error.injEq] at h
    obtain ⟨he, hst, hm⟩ := h
    subst he hst hm
    exact ⟨rfl, rfl, rfl⟩
  | ok item => rw [hg] at h; cases h

/-- A successful fetch adds exactly the returned metadata under the UID,
increments `KubeApiReadRequests` once, and preserves the TTL and
`KubeApiReadCacheHits`. -/
theorem fetch_ok_spec (env : KubeEnv) (now : Int) (ref : ObjectReference)
    (st : CacheState) (m : Metrics) (om : objectMetadata) (st' : CacheState) (m' : Metrics)
    (h : fetchObjectMetadata env now ref st m = (.ok om, st', m')) :
    st'.cache = mapAdd ref.UID ⟨now, om⟩ st.cache ∧ st'.ttl = st.ttl ∧
      m'.readRequests = m.readRequests + 1 ∧ m'.readCacheHits = m.readCacheHits := by
  unfold fetchObjectMetadata at h
  cases hmc : st.mappingCache.lookup (mappingKeyOf ref) with
  | some gvr =>
    rw [hmc] at h
    obtain ⟨h1, h2⟩ := apiGetStep_ok _ _ _ _ _ _ _ _ _ h
    subst h1 h2
    exact ⟨rfl, rfl, rfl, rfl⟩
  | none =>
    rw [hmc] at h
    cases hrm : env.restMapping (parseGroupVersion ref.APIVersion).1
        (parseGroupVersion ref.APIVersion).2 ref.Kind with
    | error e => rw [hrm] at h; cases h
    | ok gvr =>
      rw [hrm] at h
      obtain ⟨h1, h2⟩ := apiGetStep_ok _ _ _ _ _ _ _ _ _ h
      subst h1 h2
      exact ⟨rfl, rfl, rfl, rfl⟩

/-- A failing fetch never touches the metadata cache or
`KubeApiReadCacheHits`, and preserves the TTL. -/
theorem fetch_error_spec (env : KubeEnv) (now : Int) (ref : ObjectReference)
    (st : CacheState) (m : Metrics) (e : KubeErr) (st' : CacheState) (m' : Metrics)
    (h : fetchObjectMetadata env now ref st m = (.error e, st', m')) :
    st'.cache = st.cache ∧ st'.ttl = st.ttl ∧ m'.readCacheHits = m.readCacheHits := by
  unfold fetchObjectMetadata at h
  cases hmc : st.mappingCache.lookup (mappingKeyOf ref) with
  | some gvr =>
    rw [hmc] at h
    obtain ⟨-, h2, h3⟩ := apiGetStep_error _ _ _ _ _ _ _ _ _ h
    subst h2 h3
    exact ⟨rfl, rfl, rfl⟩
  | none =>
    rw [hmc] at h
    cases hrm : env.restMapping (parseGroupVersion ref.APIVersion).1
        (parseGroupVersion ref.APIVersion).2 ref.Kind with
    | error e₀ =>
      rw [hrm] at h
      simp only [Prod.mk.injEq, Except.error.injEq] at h
      obtain ⟨he, hst, hm⟩ := h
      subst he hst hm
      exact ⟨rfl, rfl, rfl⟩
    | ok gvr =>
      rw [hrm] at h
      obtain ⟨-, h2, h3⟩ := apiGetStep_error _ _ _ _ _ _ _ _ _ h
      subst h2 h3
      exact ⟨rfl, rfl, rfl⟩

/-- Unfolding `getObjectMetadata` when the UID is cached. -/
theorem getObjectMetadata_found (env : KubeEnv) (now : Int) (ref : ObjectReference)
    (st : CacheState) (m : Metrics) (cm : cachedMetadata)
    (hfound : st.cache.lookup ref.UID = some cm) :
    getObjectMetadata env now ref st m =
      if now - cm.fetchedAt < st.ttl ∨ st.ttl ≤ 0 then
        (.ok cm.metadata, st, { m with readCacheHits := m.readCacheHits + 1 })
      else
        fetchObjectMetadata env now ref { st with cache := mapRemove ref.UID st.cache } m := by
  unfold getObjectMetadata
  simp only [hfound]

/-- Unfolding `getObjectMetadata` when the UID is not cached. -/
theorem getObjectMetadata_miss (env : KubeEnv) (now : Int) (ref : ObjectReference)
    (st : CacheState) (m : Metrics)
    (h : st.cache.lookup ref.UID = none) :
    getObjectMetadata env now ref st m = fetchObjectMetadata env now ref st m := by
  unfold getObjectMetadata
  simp only [h]

/-! ### C4 -/

/-- C4: the metadata cache is keyed by UID alone and idempotent within the
TTL: after a first call that misses and fetches successfully, a second
call with any reference carrying the same UID (in particular a different
ResourceVersion) within TTL of the fetch returns the same metadata from
the cache, and across the two calls exactly one live apiserver GET was
issued. -/
theorem cache_uid_key_idempotent (env : KubeEnv) (t1 t2 : Int) (r1 r2 : ObjectReference)
    (st0 : CacheState) (m0 : Metrics) (om : objectMetadata) (st1 : CacheState) (m1 : Metrics)
    (hUID : r2.UID = r1.UID)
    (hmiss : st0.cache.lookup r1.UID = none)
    (h1 : getObjectMetadata env t1 r1 st0 m0 = (.ok om, st1, m1))
    (hfresh : t2 - t1 < st0.ttl) :
    getObjectMetadata env t2 r2 st1 m1 =
      (.ok om, st1, { m1 with readCacheHits := m1.readCacheHits + 1 }) ∧
    m1.readRequests = m0.readRequests + 1 := by
  have h1' : fetchObjectMetadata env t1 r1 st0 m0 = (.ok om, st1, m1) := by
    rw [← getObjectMetadata_miss env t1 r1 st0 m0 hmiss]
    exact h1
  obtain ⟨hcache, httl, hreads, -⟩ := fetch_ok_spec _ _ _ _ _ _ _ _ h1'
  refine ⟨?_, hreads⟩
  have hfound : st1.cache.lookup r2.UID = some ⟨t1, om⟩ := by
    rw [hUID, hcache]
    exact lookup_mapAdd_self _ _ _
  rw [getObjectMetadata_found env t2 r2 st1 m1 ⟨t1, om⟩ hfound,
    if_pos (Or.inl (show t2 - t1 < st1.ttl by rw [httl]; exact hfresh))]

/-- Witness for C4: the two fixture references differ only in
ResourceVersion; the second call at time 5 (TTL 10) is answered from the
cache with the same metadata and the GET counter still reads one. -/
theorem cache_uid_key_idempotent_witness :
    getObjectMetadata envW 5 rW2 stW1 mW1 =
      (.ok omW, stW1, { mW1 with readCacheHits := 1 }) ∧
    mW1.readRequests = Metrics.readRequests {} + 1 :=
  cache_uid_key_idempotent envW 0 5 rW1 rW2 { ttl := 10 } {} omW stW1 mW1
    rfl rfl rfl (by decide)

/-! ### C5 -/

/-- C5: freshness at the exact TTL boundary, for a cache built by
`newObjectMetadataProviderWithTTL` (whose TTL is positive): a cached entry
is returned with a `ReadCacheHits` increment exactly when
`now - fetchedAt < TTL`; when `now - fetchedAt ≥ TTL` the entry is evicted
and the call proceeds as the fetch path on the evicted state, with no
cache-hit count. -/
theorem ttl_boundary_hit_iff (env : KubeEnv) (now : Int) (ref : ObjectReference)
    (st : CacheState) (m : Metrics) (cm : cachedMetadata)
    (httl : 0 < st.ttl)
    (hfound : st.cache.lookup ref.UID = some cm) :
    (now - cm.fetchedAt < st.ttl →
      getObjectMetadata env now ref st m =
        (.ok cm.metadata, st, { m with readCacheHits := m.readCacheHits + 1 })) ∧
    (st.ttl ≤ now - cm.fetchedAt →
      getObjectMetadata env now ref st m =
        fetchObjectMetadata env now ref { st with cache := mapRemove ref.UID st.cache } m ∧
      (getObjectMetadata env now ref st m).2.2.readCacheHits = m.readCacheHits) := by
  constructor
  · intro hlt
    rw [getObjectMetadata_found env now ref st m cm hfound, if_pos (Or.inl hlt)]
  · intro hge
    have hcond : ¬(now - cm.fetchedAt < st.ttl ∨ st.ttl ≤ 0) := by omega
    have heq : getObjectMetadata env now ref st m =
        fetchObjectMetadata env now ref { st with cache := mapRemove ref.UID st.cache } m := by
      rw [getObjectMetadata_found env now ref st m cm hfound, if_neg hcond]
    refine ⟨heq, ?_⟩
    rw [heq]
    rcases hres : fetchObjectMetadata env now ref
        { st with cache := mapRemove ref.UID st.cache } m with ⟨res, st2, m2⟩
    cases res with
    | error e => simpa using (fetch_error_spec _ _ _ _ _ _ _ _ hres).2.2
    | ok om => simpa using (fetch_ok_spec _ _ _ _ _ _ _ _ hres).2.2.2

/-- Witness for C5 in the stale case: at time 12 with TTL 10 the entry
fetched at 0 is evicted and the fetch path is taken. -/
theorem ttl_boundary_hit_iff_witness :
    getObjectMetadata envW 12 rW1 stW1 mW1 =
      fetchObjectMetadata envW 12 rW1 { stW1 with cache := mapRemove "test-uid" stW1.cache } mW1 ∧
    (getObjectMetadata envW 12 rW1 stW1 mW1).2.2.readCacheHits = mW1.readCacheHits := by
  have h := (ttl_boundary_hit_iff envW 12 rW1 stW1 mW1 ⟨0, omW⟩ (by decide) rfl).2 (by decide)
  exact h

/-! ### C3 -/

/-- C3: an event whose effective timestamp is older than
`now - maxEventAgeSeconds` is never forwarded to the event handler (so no
receiver sees it); the warning and the `EventsDiscarded` increment happen
exactly when the effective timestamp is after the startup instant, and
the discard is silent otherwise. -/
theorem old_events_not_forwarded (env : KubeEnv) (now startUp maxAge : Int)
    (omitL : Bool) (e : Event) (st : CacheState) (m : Metrics)
    (hold : effectiveTimestamp e < now - maxAge) :
    (onEvent env now startUp maxAge omitL e st m).1 = none ∧
    (effectiveTimestamp e > startUp →
      (isEventDiscarded now startUp maxAge e).warned = true ∧
      (onEvent env now startUp maxAge omitL e st m).2.2.eventsDiscarded =
        m.eventsDiscarded + 1) ∧
    (effectiveTimestamp e ≤ startUp →
      (isEventDiscarded now startUp maxAge e).warned = false ∧
      (onEvent env now startUp maxAge omitL e st m).2.2.eventsDiscarded =
        m.eventsDiscarded) := by
  have hage : now - effectiveTimestamp e > maxAge := by omega
  refine ⟨?_, ?_, ?_⟩
  · simp [onEvent, isEventDiscarded, hage]
  · intro hgt
    constructor
    · simp [isEventDiscarded, hage, hgt]
    · simp [onEvent, isEventDiscarded, hage, hgt]
  · intro hle
    have hngt : ¬effectiveTimestamp e > startUp := not_lt.mpr hle
    constructor
    · simp [isEventDiscarded, hage, hngt]
    · simp [onEvent, isEventDiscarded, hage, hngt]

/-- Witness for C3: at `now = 100` with a 10-unit age bound, an event with
effective timestamp 1 (after a startup at 0) is dropped with the counter
incremented. -/
theorem old_events_not_forwarded_witness :
    (onEvent envW 100 0 10 false { EventTime := 1 } {} {}).1 = none ∧
    (isEventDiscarded 100 0 10 { EventTime := 1 }).warned = true ∧
    (onEvent envW 100 0 10 false { EventTime := 1 } {} {}).2.2.eventsDiscarded =
      Metrics.eventsDiscarded {} + 1 := by
  have h := old_events_not_forwarded envW 100 0 10 false { EventTime := 1 } {} {} (by decide)
  exact ⟨h.1, (h.2.1 (by decide)).1, (h.2.1 (by decide)).2⟩

/-! ### C6 -/

/-- The `Except` result of the GET step does not depend on the metrics. -/
theorem apiGetStep_fst_indep (env : KubeEnv) (now : Int) (ref : ObjectReference)
    (gvr : GroupVersionResource) (st : CacheState) (m₁ m₂ : Metrics) :
    (apiGetStep env now ref gvr st m₁).1 = (apiGetStep env now ref gvr st m₂).1 := by
  unfold apiGetStep
  cases env.apiGet gvr ref.Namespace ref.Name <;> rfl

/-- The `Except` result of the fetch path does not depend on the metrics. -/
theorem fetch_fst_indep (env : KubeEnv) (now : Int) (ref : ObjectReference)
    (st : CacheState) (m₁ m₂ : Metrics) :
    (fetchObjectMetadata env now ref st m₁).1 = (fetchObjectMetadata env now ref st m₂).1 := by
  unfold fetchObjectMetadata
  cases st.mappingCache.lookup (mappingKeyOf ref) with
  | some gvr => exact apiGetStep_fst_indep env now ref gvr st _ _
  | none =>
    cases env.restMapping (parseGroupVersion ref.APIVersion).1
        (parseGroupVersion ref.APIVersion).2 ref.Kind with
    | error e => rfl
    | ok gvr => exact apiGetStep_fst_indep env now ref gvr _ _ _

/-- The `Except` result of `getObjectMetadata` does not depend on the
metrics. -/
theorem getObjectMetadata_fst_indep (env : KubeEnv) (now : Int) (ref : ObjectReference)
    (st : CacheState) (m₁ m₂ : Metrics) :
    (getObjectMetadata env now ref st m₁).1 = (getObjectMetadata env now ref st m₂).1 := by
  cases hl : st.cache.lookup ref.UID with
  | some cm =>
    rw [getObjectMetadata_found env now ref st m₁ cm hl,
      getObjectMetadata_found env now ref st m₂ cm hl]
    by_cases hc : now - cm.fetchedAt < st.ttl ∨ st.ttl ≤ 0
    · rw [if_pos hc, if_pos hc]
    · rw [if_neg hc, if_neg hc]
      exact fetch_fst_indep env now ref _ _ _
  | none =>
    rw [getObjectMetadata_miss env now ref st m₁ hl,
      getObjectMetadata_miss env now ref st m₂ hl]
    exact fetch_fst_indep env now ref st _ _

/-- C6: a failing live GET caches nothing and returns the error, and the
ingestor still forwards the event: the enhanced event carries only the
bare ObjectReference (no labels, annotations or owner references), with
`Deleted` set exactly when the error is not-found. -/
theorem notFound_marks_deleted_and_forwards (env : KubeEnv) (now startUp maxAge : Int)
    (e : Event) (st : CacheState) (m : Metrics) :
    (∀ err st' m', getObjectMetadata env now e.InvolvedObject st m = (.error err, st', m') →
      st'.cache = st.cache ∨ st'.cache = mapRemove e.InvolvedObject.UID st.cache) ∧
    (∀ gvr err, st.cache.lookup e.InvolvedObject.UID = none →
      st.mappingCache.lookup (mappingKeyOf e.InvolvedObject) = some gvr →
      env.apiGet gvr e.InvolvedObject.Namespace e.InvolvedObject.Name = .error err →
      getObjectMetadata env now e.InvolvedObject st m =
        (.error err, st,
          { m with
            mappingCacheHits := m.mappingCacheHits + 1
            readRequests := m.readRequests + 1 })) ∧
    (∀ err, (isEventDiscarded now startUp maxAge e).discarded = false →
      (getObjectMetadata env now e.InvolvedObject st m).1 = .error err →
      (onEvent env now startUp maxAge false e st m).1 =
        some { Event := { e with ManagedFields := [] }
               InvolvedObject :=
                 { ObjectReference := e.InvolvedObject
                   Labels := []
                   Annotations := []
                   OwnerReferences := []
                   Deleted := err.notFound } }) := by
  refine ⟨?_, ?_, ?_⟩
  · intro err st' m' h
    cases hl : st.cache.lookup e.InvolvedObject.UID with
    | none =>
      rw [getObjectMetadata_miss env now e.InvolvedObject st m hl] at h
      exact Or.inl (fetch_error_spec _ _ _ _ _ _ _ _ h).1
    | some cm =>
      rw [getObjectMetadata_found env now e.InvolvedObject st m cm hl] at h
      by_cases hc : now - cm.fetchedAt < st.ttl ∨ st.ttl ≤ 0
      · rw [if_pos hc] at h
        simp at h
      · rw [if_neg hc] at h
        refine Or.inr ?_
        have := (fetch_error_spec _ _ _ _ _ _ _ _ h).1
        simpa using this
  · intro gvr err hl hmc hget
    rw [getObjectMetadata_miss env now e.InvolvedObject st m hl]
    simp [fetchObjectMetadata, apiGetStep, hmc, hget]
  · intro err hdisc herr
    unfold onEvent
    rcases hcall : getObjectMetadata env now e.InvolvedObject st
        { m with eventsProcessed := m.eventsProcessed + 1 } with ⟨res, st2, m2⟩
    have hres : res = .error err := by
      have hi := getObjectMetadata_fst_indep env now e.InvolvedObject st
        { m with eventsProcessed := m.eventsProcessed + 1 } m
      rw [hcall] at hi
      rw [show ((res, st2, m2) : Except KubeErr objectMetadata × CacheState × Metrics).1
        = res from rfl] at hi
      rw [hi, herr]
    subst hres
    simp only [hdisc, Bool.false_eq_true, if_false, hcall]
    cases hnf : err.notFound <;> simp [hnf]

/-- Witness for C6: a not-found GET through a warmed mapping cache returns
the error without caching, and the watcher forwards the event with
`Deleted = true` on the bare reference. -/
theorem notFound_marks_deleted_and_forwards_witness :
    getObjectMetadata envNF 0 eNF.InvolvedObject stMap {} =
      (.error { notFound := true }, stMap, { mappingCacheHits := 1, readRequests := 1 }) ∧
    (onEvent envNF 0 0 10 false eNF stMap {}).1 =
      some { Event := { eNF with ManagedFields := [] }
             InvolvedObject :=
               { ObjectReference := eNF.InvolvedObject
                 Labels := []
                 Annotations := []
                 OwnerReferences := []
                 Deleted := true } } := by
  have h := notFound_marks_deleted_and_forwards envNF 0 0 10 eNF stMap {}
  exact ⟨h.2.1 ⟨"apps", "v1", "deployments"⟩ { notFound := true } rfl rfl rfl,
    h.2.2 { notFound := true } rfl rfl⟩

/-! ### C8 -/

/-- The tail blocks of `SetDefaults` never change `MappingCacheSize`. -/
theorem setTailDefaults_mapping (c : Config) :
    (setTailDefaults c).MappingCacheSize = c.MappingCacheSize := by
  simp only [setTailDefaults]
  repeat' split
  all_goals rfl

/-- The first block of `SetDefaults` never changes `MappingCacheSize`. -/
theorem setCacheSizeDefault_mapping (c : Config) :
    (setCacheSizeDefault c).MappingCacheSize = c.MappingCacheSize := by
  unfold setCacheSizeDefault
  split <;> rfl

/-- Counterexample to C8 as stated: with `MappingCacheSize` unset and
`MAPPING_CACHE_SIZE="0"`, the warning is logged but `MappingCacheSize`
stays 0 — the claimed default `max(256, CacheSize/4) = 256` is NOT
applied (the repository's own test
`TestSetDefaults_MappingCacheSizeEnv/"zero env value leaves size at zero"`
asserts exactly this). -/
theorem mapping_cache_invalid_env_counterexample :
    (Config.SetDefaults (some "0") {}).1.CacheSize = 1024 ∧
    (Config.SetDefaults (some "0") {}).2 = true ∧
    (Config.SetDefaults (some "0") {}).1.MappingCacheSize = 0 ∧
    (Config.SetDefaults (some "0") {}).1.MappingCacheSize ≠
      max DefaultMappingCacheSize
        (Int.tdiv (Config.SetDefaults (some "0") {}).1.CacheSize 4) := by
  refine ⟨rfl, rfl, rfl, by decide⟩

/-- C8 (amended): in `SetDefaults`, when `MappingCacheSize` is unset
(non-positive) in the config: a positive-integer `MAPPING_CACHE_SIZE` is
used; a non-positive or non-numeric value is rejected with a warning and
`MappingCacheSize` is left unchanged (the default is not applied); the
default `max(256, CacheSize/4)` applies only when the variable is
unset. -/
theorem mapping_cache_env_amended (env : Option String) (c : Config)
    (hunset : ¬c.MappingCacheSize > 0) :
    (env = none →
      (Config.SetDefaults env c).1.MappingCacheSize =
        max DefaultMappingCacheSize (Int.tdiv (setCacheSizeDefault c).CacheSize 4) ∧
      (Config.SetDefaults env c).2 = false) ∧
    (∀ v p, env = some v → atoi v = some p → 0 < p →
      (Config.SetDefaults env c).1.MappingCacheSize = p ∧
      (Config.SetDefaults env c).2 = false) ∧
    (∀ v, env = some v → (∀ p, atoi v = some p → p ≤ 0) →
      (Config.SetDefaults env c).1.MappingCacheSize = c.MappingCacheSize ∧
      (Config.SetDefaults env c).2 = true) := by
  have hunset₁ : ¬(setCacheSizeDefault c).MappingCacheSize > 0 := by
    rw [setCacheSizeDefault_mapping]; exact hunset
  refine ⟨?_, ?_, ?_⟩
  · intro henv
    subst henv
    unfold Config.SetDefaults
    simp only [setMappingCacheSizeDefault, if_neg hunset₁]
    exact ⟨setTailDefaults_mapping _, trivial⟩
  · intro v p henv hatoi hpos
    subst henv
    unfold Config.SetDefaults
    simp only [setMappingCacheSizeDefault, if_neg hunset₁, hatoi, if_pos hpos]
    exact ⟨setTailDefaults_mapping _, trivial⟩
  · intro v henv hbad
    subst henv
    unfold Config.SetDefaults
    cases hatoi : atoi v with
    | none =>
      simp only [setMappingCacheSizeDefault, if_neg hunset₁, hatoi]
      refine ⟨?_, trivial⟩
      rw [setTailDefaults_mapping, setCacheSizeDefault_mapping]
    | some p =>
      have hle : ¬p > 0 := not_lt.mpr (hbad p hatoi)
      simp only [setMappingCacheSizeDefault, if_neg hunset₁, hatoi, if_neg hle]
      refine ⟨?_, trivial⟩
      rw [setTailDefaults_mapping, setCacheSizeDefault_mapping]

/-- Witness for the amended C8: a valid env value of 300 is adopted
without a warning. -/
theorem mapping_cache_env_amended_witness :
    (Config.SetDefaults (some "300") {}).1.MappingCacheSize = 300 ∧
    (Config.SetDefaults (some "300") {}).2 = false :=
  (mapping_cache_env_amended (some "300") {} (by decide)).2.1 "300" 300 rfl rfl (by decide)

/-! ### C7 -/

/-- A successfully compiled pattern is non-null exactly for a non-empty
pattern string. -/
theorem compilePattern_ok_isSome (eng : RegexEngine) (p : String) (op : Option PatFun)
    (h : compilePattern eng p = .ok op) : op.isSome ↔ p ≠ "" := by
  unfold compilePattern at h
  by_cases hp : p = ""
  · rw [if_pos hp] at h
    simp only [Except.ok.injEq] at h
    subst h
    simp [hp]
  · rw [if_neg hp] at h
    cases hc : eng.compile p with
    | none => simp only [hc] at h; exact Except.noConfusion h
    | some f =>
      simp only [hc, Except.ok.injEq] at h
      subst h
      simp [hp]

/-- A successful `compilePattern` on a non-empty string means the engine
compiled it. -/
theorem compilePattern_ok_compiles (eng : RegexEngine) (p : String) (op : Option PatFun)
    (h : compilePattern eng p = .ok op) (hne : p ≠ "") : (eng.compile p).isSome := by
  unfold compilePattern at h
  rw [if_neg hne] at h
  cases hc : eng.compile p with
  | none => simp only [hc] at h; exact Except.noConfusion h
  | some f => simp

/-- A failing `compilePattern` names the pattern, which is non-empty and
rejected by the engine. -/
theorem compilePattern_error_spec (eng : RegexEngine) (p : String) (e : ConfigErr)
    (h : compilePattern eng p = .error e) :
    e = .badPattern p ∧ p ≠ "" ∧ eng.compile p = none := by
  unfold compilePattern at h
  by_cases hp : p = ""
  · rw [if_pos hp] at h; exact Except.noConfusion h
  · rw [if_neg hp] at h
    cases hc : eng.compile p with
    | none =>
      simp only [hc, Except.error.injEq] at h
      exact ⟨h.symm, hp, rfl⟩
    | some f => simp only [hc] at h; exact Except.noConfusion h

/-- A successfully compiled pattern map binds, entry by entry, the same
keys with non-null patterns exactly for non-empty regex strings. -/
theorem compilePatternMap_ok_forall (eng : RegexEngine) :
    ∀ (l : List (String × String)) (l' : List (String × Option PatFun)),
      compilePatternMap eng l = .ok l' →
      List.Forall₂ (fun (kv : String × String) (kp : String × Option PatFun) =>
        kp.1 = kv.1 ∧ (kp.2.isSome ↔ kv.2 ≠ "")) l l'
  | [], l', h => by
    simp only [compilePatternMap, Except.ok.injEq] at h
    subst h
    exact List.Forall₂.nil
  | (k, v) :: rest, l', h => by
    simp only [compilePatternMap] at h
    cases h1 : compilePattern eng v with
    | error e => simp only [h1] at h; exact Except.noConfusion h
    | ok re =>
      simp only [h1] at h
      cases h2 : compilePatternMap eng rest with
      | error e => simp only [h2] at h; exact Except.noConfusion h
      | ok rest' =>
        simp only [h2, Except.ok.injEq] at h
        subst h
        exact List.Forall₂.cons ⟨rfl, compilePattern_ok_isSome eng v re h1⟩
          (compilePatternMap_ok_forall eng rest rest' h2)

/-- A successful `compilePatternMap` means the engine compiled every
non-empty value. -/
theorem compilePatternMap_ok_compiles (eng : RegexEngine) :
    ∀ (l : List (String × String)) (l' : List (String × Option PatFun)),
      compilePatternMap eng l = .ok l' →
      ∀ kv ∈ l, kv.2 ≠ "" → (eng.compile kv.2).isSome
  | [], _, _ => by simp
  | (k, v) :: rest, l', h => by
    simp only [compilePatternMap] at h
    cases h1 : compilePattern eng v with
    | error e => simp only [h1] at h; exact Except.noConfusion h
    | ok re =>
      simp only [h1] at h
      cases h2 : compilePatternMap eng rest with
      | error e => simp only [h2] at h; exact Except.noConfusion h
      | ok rest' =>
        intro kv hkv hne
        rcases List.mem_cons.mp hkv with hkv | hkv
        · subst hkv
          exact compilePattern_ok_compiles eng v re h1 hne
        · exact compilePatternMap_ok_compiles eng rest rest' h2 kv hkv hne

/-- A failing `compilePatternMap` names an offending key and pattern from
the map, with the pattern non-empty and rejected by the engine. -/
theorem compilePatternMap_error_spec (eng : RegexEngine) :
    ∀ (l : List (String × String)) (e : ConfigErr),
      compilePatternMap eng l = .error e →
      ∃ k p, e = .badMapPattern k p ∧ (k, p) ∈ l ∧ p ≠ "" ∧ eng.compile p = none
  | [], e, h => by
    simp only [compilePatternMap] at h
    exact Except.noConfusion h
  | (k, v) :: rest, e, h => by
    simp only [compilePatternMap] at h
    cases h1 : compilePattern eng v with
    | error e1 =>
      simp only [h1, Except.error.injEq] at h
      obtain ⟨-, hne, hcomp⟩ := compilePattern_error_spec eng v e1 h1
      exact ⟨k, v, h.symm, List.mem_cons_self _ _, hne, hcomp⟩
    | ok re =>
      simp only [h1] at h
      cases h2 : compilePatternMap eng rest with
      | error e2 =>
        simp only [h2, Except.error.injEq] at h
        subst h
        obtain ⟨k', p, he, hmem, hne, hcomp⟩ := compilePatternMap_error_spec eng rest e2 h2
        exact ⟨k', p, he, List.mem_cons_of_mem _ hmem, hne, hcomp⟩
      | ok rest' => simp only [h2] at h; exact Except.noConfusion h

/-- A successfully precompiled rule satisfies the compiled-pattern
invariant, and every non-empty regex string of the input rule compiled. -/
theorem preCompilePatternsHelper_ok_spec (eng : RegexEngine) (r r' : Rule)
    (h : preCompilePatternsHelper eng r = .ok r') :
    patternsOk r' ∧ ∀ p ∈ rulePatternStrings r, p ≠ "" → (eng.compile p).isSome := by
  unfold preCompilePatternsHelper at h
  cases h1 : compilePattern eng r.APIVersion with
  | error e => simp only [h1] at h; exact Except.noConfusion h
  | ok apiVersionPat =>
  simp only [h1] at h
  cases h2 : compilePattern eng r.Kind with
  | error e => simp only [h2] at h; exact Except.noConfusion h
  | ok kindPat =>
  simp only [h2] at h
  cases h3 : compilePattern eng r.Namespace with
  | error e => simp only [h3] at h; exact Except.noConfusion h
  | ok namespacePat =>
  simp only [h3] at h
  cases h4 : compilePattern eng r.Reason with
  | error e => simp only [h4] at h; exact Except.noConfusion h
  | ok reasonPat =>
  simp only [h4] at h
  cases h5 : compilePattern eng r.Type' with
  | error e => simp only [h5] at h; exact Except.noConfusion h
  | ok typePat =>
  simp only [h5] at h
  cases h6 : compilePattern eng r.Component with
  | error e => simp only [h6] at h; exact Except.noConfusion h
  | ok componentPat =>
  simp only [h6] at h
  cases h7 : compilePattern eng r.Host with
  | error e => simp only [h7] at h; exact Except.noConfusion h
  | ok hostPat =>
  simp only [h7] at h
  cases h8 : compilePattern eng r.Message with
  | error e => simp only [h8] at h; exact Except.noConfusion h
  | ok messagePat =>
  simp only [h8] at h
  cases h9 : compilePattern eng r.Receiver with
  | error e => simp only [h9] at h; exact Except.noConfusion h
  | ok receiverPat =>
  simp only [h9] at h
  cases h10 : compilePatternMap eng r.Labels with
  | error e => simp only [h10] at h; exact Except.noConfusion h
  | ok labelsPats =>
  simp only [h10] at h
  cases h11 : compilePatternMap eng r.Annotations with
  | error e => simp only [h11] at h; exact Except.noConfusion h
  | ok annotationsPats =>
  simp only [h11, Except.ok.injEq] at h
  subst h
  constructor
  · exact ⟨compilePattern_ok_isSome eng _ _ h1, compilePattern_ok_isSome eng _ _ h2,
      compilePattern_ok_isSome eng _ _ h3, compilePattern_ok_isSome eng _ _ h4,
      compilePattern_ok_isSome eng _ _ h5, compilePattern_ok_isSome eng _ _ h6,
      compilePattern_ok_isSome eng _ _ h7, compilePattern_ok_isSome eng _ _ h8,
      compilePattern_ok_isSome eng _ _ h9,
      compilePatternMap_ok_forall eng _ _ h10,
      compilePatternMap_ok_forall eng _ _ h11⟩
  · intro p hp hne
    simp only [rulePatternStrings, List.mem_append, List.mem_cons, List.mem_singleton,
      List.mem_map, List.not_mem_nil, or_false] at hp
    rcases hp with ((rfl | rfl | rfl | rfl | rfl | rfl | rfl | rfl | rfl) | ⟨kv, hkv, rfl⟩) |
      ⟨kv, hkv, rfl⟩
    · exact compilePattern_ok_compiles eng _ _ h1 hne
    · exact compilePattern_ok_compiles eng _ _ h2 hne
    · exact compilePattern_ok_compiles eng _ _ h3 hne
    · exact compilePattern_ok_compiles eng _ _ h4 hne
    · exact compilePattern_ok_compiles eng _ _ h5 hne
    · exact compilePattern_ok_compiles eng _ _ h6 hne
    · exact compilePattern_ok_compiles eng _ _ h7 hne
    · exact compilePattern_ok_compiles eng _ _ h8 hne
    · exact compilePattern_ok_compiles eng _ _ h9 hne
    · exact compilePatternMap_ok_compiles eng _ _ h10 kv hkv hne
    · exact compilePatternMap_ok_compiles eng _ _ h11 kv hkv hne

/-- A failing rule precompilation names an offending pattern of the rule:
a non-empty regex string the engine rejects. -/
theorem preCompilePatternsHelper_error_spec (eng : RegexEngine) (r : Rule) (e : ConfigErr)
    (h : preCompilePatternsHelper eng r = .error e) :
    ∃ q, ConfigErr.errPattern e = some q ∧ q ∈ rulePatternStrings r ∧ q ≠ "" ∧
      eng.compile q = none := by
  unfold preCompilePatternsHelper at h
  cases h1 : compilePattern eng r.APIVersion with
  | error e1 =>
    simp only [h1, Except.error.injEq] at h
    subst h
    obtain ⟨rfl, hne, hcomp⟩ := compilePattern_error_spec eng _ _ h1
    exact ⟨r.APIVersion, rfl, by simp [rulePatternStrings], hne, hcomp⟩
  | ok apiVersionPat =>
  simp only [h1] at h
  cases h2 : compilePattern eng r.Kind with
  | error e2 =>
    simp only [h2, Except.error.injEq] at h
    subst h
    obtain ⟨rfl, hne, hcomp⟩ := compilePattern_error_spec eng _ _ h2
    exact ⟨r.Kind, rfl, by simp [rulePatternStrings], hne, hcomp⟩
  | ok kindPat =>
  simp only [h2] at h
  cases h3 : compilePattern eng r.Namespace with
  | error e3 =>
    simp only [h3, Except.error.injEq] at h
    subst h
    obtain ⟨rfl, hne, hcomp⟩ := compilePattern_error_spec eng _ _ h3
    exact ⟨r.Namespace, rfl, by simp [rulePatternStrings], hne, hcomp⟩
  | ok namespacePat =>
  simp only [h3] at h
  cases h4 : compilePattern eng r.Reason with
  | error e4 =>
    simp only [h4, Except.error.injEq] at h
    subst h
    obtain ⟨rfl, hne, hcomp⟩ := compilePattern_error_spec eng _ _ h4
    exact ⟨r.Reason, rfl, by simp [rulePatternStrings], hne, hcomp⟩
  | ok reasonPat =>
  simp only [h4] at h
  cases h5 : compilePattern eng r.Type' with
  | error e5 =>
    simp only [h5, Except.error.injEq] at h
    subst h
    obtain ⟨rfl, hne, hcomp⟩ := compilePattern_error_spec eng _ _ h5
    exact ⟨r.Type', rfl, by simp [rulePatternStrings], hne, hcomp⟩
  | ok typePat =>
  simp only [h5] at h
  cases h6 : compilePattern eng r.Component with
  | error e6 =>
    simp only [h6, Except.error.injEq] at h
    subst h
    obtain ⟨rfl, hne, hcomp⟩ := compilePattern_error_spec eng _ _ h6
    exact ⟨r.Component, rfl, by simp [rulePatternStrings], hne, hcomp⟩
  | ok componentPat =>
  simp only [h6] at h
  cases h7 : compilePattern eng r.Host with
  | error e7 =>
    simp only [h7, Except.error.injEq] at h
    subst h
    obtain ⟨rfl, hne, hcomp⟩ := compilePattern_error_spec eng _ _ h7
    exact ⟨r.Host, rfl, by simp [rulePatternStrings], hne, hcomp⟩
  | ok hostPat =>
  simp only [h7] at h
  cases h8 : compilePattern eng r.Message with
  | error e8 =>
    simp only [h8, Except.error.injEq] at h
    subst h
    obtain ⟨rfl, hne, hcomp⟩ := compilePattern_error_spec eng _ _ h8
    exact ⟨r.Message, rfl, by simp [rulePatternStrings], hne, hcomp⟩
  | ok messagePat =>
  simp only [h8] at h
  cases h9 : compilePattern eng r.Receiver with
  | error e9 =>
    simp only [h9, Except.error.injEq] at h
    subst h
    obtain ⟨rfl, hne, hcomp⟩ := compilePattern_error_spec eng _ _ h9
    exact ⟨r.Receiver, rfl, by simp [rulePatternStrings], hne, hcomp⟩
  | ok receiverPat =>
  simp only [h9] at h
  cases h10 : compilePatternMap eng r.Labels with
  | error e10 =>
    simp only [h10, Except.error.injEq] at h
    subst h
    obtain ⟨k, p, rfl, hmem, hne, hcomp⟩ := compilePatternMap_error_spec eng _ _ h10
    refine ⟨p, rfl, ?_, hne, hcomp⟩
    simp only [rulePatternStrings, List.mem_append, List.mem_map]
    exact Or.inl (Or.inr ⟨(k, p), hmem, rfl⟩)
  | ok labelsPats =>
  simp only [h10] at h
  cases h11 : compilePatternMap eng r.Annotations with
  | error e11 =>
    simp only [h11, Except.error.injEq] at h
    subst h
    obtain ⟨k, p, rfl, hmem, hne, hcomp⟩ := compilePatternMap_error_spec eng _ _ h11
    refine ⟨p, rfl, ?_, hne, hcomp⟩
    simp only [rulePatternStrings, List.mem_append, List.mem_map]
    exact Or.inr ⟨(k, p), hmem, rfl⟩
  | ok annotationsPats =>
  simp only [h11] at h
  exact Except.noConfusion h

/-- A successfully precompiled rule list yields only rules satisfying the
invariant, and every non-empty regex string of the input rules
compiled. -/
theorem preCompileRules_ok_spec (eng : RegexEngine) :
    ∀ (l l' : List Rule), preCompileRules eng l = .ok l' →
      (∀ r ∈ l', patternsOk r) ∧
      (∀ r ∈ l, ∀ p ∈ rulePatternStrings r, p ≠ "" → (eng.compile p).isSome)
  | [], l', h => by
    simp only [preCompileRules, Except.ok.injEq] at h
    subst h
    simp
  | r :: rest, l', h => by
    simp only [preCompileRules] at h
    cases h1 : preCompilePatternsHelper eng r with
    | error e => simp only [h1] at h; exact Except.noConfusion h
    | ok r' =>
      simp only [h1] at h
      cases h2 : preCompileRules eng rest with
      | error e => simp only [h2] at h; exact Except.noConfusion h
      | ok rest' =>
        simp only [h2, Except.ok.injEq] at h
        subst h
        obtain ⟨hp1, hc1⟩ := preCompilePatternsHelper_ok_spec eng r r' h1
        obtain ⟨hp2, hc2⟩ := preCompileRules_ok_spec eng rest rest' h2
        constructor
        · intro x hx
          rcases List.mem_cons.mp hx with hx | hx
          · exact hx ▸ hp1
          · exact hp2 x hx
        · intro x hx
          rcases List.mem_cons.mp hx with hx | hx
          · exact hx ▸ hc1
          · exact hc2 x hx

/-- A failing rule-list precompilation names an offending pattern of one
of the rules. -/
theorem preCompileRules_error_spec (eng : RegexEngine) :
    ∀ (l : List Rule) (e : ConfigErr), preCompileRules eng l = .error e →
      ∃ q, ConfigErr.errPattern e = some q ∧
        (∃ r ∈ l, q ∈ rulePatternStrings r) ∧ q ≠ "" ∧ eng.compile q = none
  | [], e, h => by
    simp only [preCompileRules] at h
    exact Except.noConfusion h
  | r :: rest, e, h => by
    simp only [preCompileRules] at h
    cases h1 : preCompilePatternsHelper eng r with
    | error e1 =>
      simp only [h1, Except.error.injEq] at h
      subst h
      obtain ⟨q, hq, hmem, hne, hcomp⟩ := preCompilePatternsHelper_error_spec eng r e1 h1
      exact ⟨q, hq, ⟨r, List.mem_cons_self _ _, hmem⟩, hne, hcomp⟩
    | ok r' =>
      simp only [h1] at h
      cases h2 : preCompileRules eng rest with
      | error e2 =>
        simp only [h2, Except.error.injEq] at h
        subst h
        obtain ⟨q, hq, ⟨x, hx, hmem⟩, hne, hcomp⟩ := preCompileRules_error_spec eng rest e2 h2
        exact ⟨q, hq, ⟨x, List.mem_cons_of_mem _ hx, hmem⟩, hne, hcomp⟩
      | ok rest' => simp only [h2] at h; exact Except.noConfusion h

mutual

/-- A successfully precompiled route yields only rules satisfying the
invariant, and every non-empty regex string reachable in the input route
compiled. -/
theorem preCompileRoute_ok_spec (eng : RegexEngine) :
    ∀ (rt rt' : Route), preCompileRoute eng rt = .ok rt' →
      (∀ r ∈ rt'.allRules, patternsOk r) ∧
      (∀ r ∈ rt.allRules, ∀ p ∈ rulePatternStrings r, p ≠ "" → (eng.compile p).isSome)
  | .mk ms ds rs, rt', h => by
    simp only [preCompileRoute] at h
    cases h1 : preCompileRules eng ds with
    | error e => simp only [h1] at h; exact Except.noConfusion h
    | ok ds' =>
      simp only [h1] at h
      cases h2 : preCompileRules eng ms with
      | error e => simp only [h2] at h; exact Except.noConfusion h
      | ok ms' =>
        simp only [h2] at h
        cases h3 : preCompileRoutes eng rs with
        | error e => simp only [h3] at h; exact Except.noConfusion h
        | ok rs' =>
          simp only [h3, Except.ok.injEq] at h
          subst h
          obtain ⟨hd1, hd2⟩ := preCompileRules_ok_spec eng ds ds' h1
          obtain ⟨hm1, hm2⟩ := preCompileRules_ok_spec eng ms ms' h2
          obtain ⟨hr1, hr2⟩ := preCompileRoutes_ok_spec eng rs rs' h3
          constructor
          · intro r hr
            simp only [Route.allRules, List.mem_append] at hr
            rcases hr with (hr | hr) | hr
            · exact hd1 r hr
            · exact hm1 r hr
            · exact hr1 r hr
          · intro r hr
            simp only [Route.allRules, List.mem_append] at hr
            rcases hr with (hr | hr) | hr
            · exact hd2 r hr
            · exact hm2 r hr
            · exact hr2 r hr

/-- The list version of `preCompileRoute_ok_spec`. -/
theorem preCompileRoutes_ok_spec (eng : RegexEngine) :
    ∀ (l l' : List Route), preCompileRoutes eng l = .ok l' →
      (∀ r ∈ allRulesList l', patternsOk r) ∧
      (∀ r ∈ allRulesList l, ∀ p ∈ rulePatternStrings r, p ≠ "" → (eng.compile p).isSome)
  | [], l', h => by
    simp only [preCompileRoutes, Except.ok.injEq] at h
    subst h
    simp [allRulesList]
  | rt :: rest, l', h => by
    simp only [preCompileRoutes] at h
    cases h1 : preCompileRoute eng rt with
    | error e => simp only [h1] at h; exact Except.noConfusion h
    | ok rt' =>
      simp only [h1] at h
      cases h2 : preCompileRoutes eng rest with
      | error e => simp only [h2] at h; exact Except.noConfusion h
      | ok rest' =>
        simp only [h2, Except.ok.injEq] at h
        subst h
        obtain ⟨ha1, ha2⟩ := preCompileRoute_ok_spec eng rt rt' h1
        obtain ⟨hb1, hb2⟩ := preCompileRoutes_ok_spec eng rest rest' h2
        constructor
        · intro r hr
          simp only [allRulesList, List.mem_append] at hr
          rcases hr with hr | hr
          · exact ha1 r hr
          · exact hb1 r hr
        · intro r hr
          simp only [allRulesList, List.mem_append] at hr
          rcases hr with hr | hr
          · exact ha2 r hr
          · exact hb2 r hr

end

mutual

/-- A failing route precompilation names an offending pattern of a rule
reachable in the route. -/
theorem preCompileRoute_error_spec (eng : RegexEngine) :
    ∀ (rt : Route) (e : ConfigErr), preCompileRoute eng rt = .error e →
      ∃ q, ConfigErr.errPattern e = some q ∧
        (∃ r ∈ rt.allRules, q ∈ rulePatternStrings r) ∧ q ≠ "" ∧ eng.compile q = none
  | .mk ms ds rs, e, h => by
    simp only [preCompileRoute] at h
    cases h1 : preCompileRules eng ds with
    | error e1 =>
      simp only [h1, Except.error.injEq] at h
      subst h
      obtain ⟨q, hq, ⟨r, hr, hmem⟩, hne, hcomp⟩ := preCompileRules_error_spec eng ds e1 h1
      refine ⟨q, hq, ⟨r, ?_, hmem⟩, hne, hcomp⟩
      simp only [Route.allRules, List.mem_append]
      exact Or.inl (Or.inl hr)
    | ok ds' =>
      simp only [h1] at h
      cases h2 : preCompileRules eng ms with
      | error e2 =>
        simp only [h2, Except.error.injEq] at h
        subst h
        obtain ⟨q, hq, ⟨r, hr, hmem⟩, hne, hcomp⟩ := preCompileRules_error_spec eng ms e2 h2
        refine ⟨q, hq, ⟨r, ?_, hmem⟩, hne, hcomp⟩
        simp only [Route.allRules, List.mem_append]
        exact Or.inl (Or.inr hr)
      | ok ms' =>
        simp only [h2] at h
        cases h3 : preCompileRoutes eng rs with
        | error e3 =>
          simp only [h3, Except.error.injEq] at h
          subst h
          obtain ⟨q, hq, ⟨r, hr, hmem⟩, hne, hcomp⟩ :=
            preCompileRoutes_error_spec eng rs e3 h3
          refine ⟨q, hq, ⟨r, ?_, hmem⟩, hne, hcomp⟩
          simp only [Route.allRules, List.mem_append]
          exact Or.inr hr
        | ok rs' => simp only [h3] at h; exact Except.noConfusion h

/-- The list version of `preCompileRoute_error_spec`. -/
theorem preCompileRoutes_error_spec (eng : RegexEngine) :
    ∀ (l : List Route) (e : ConfigErr), preCompileRoutes eng l = .error e →
      ∃ q, ConfigErr.errPattern e = some q ∧
        (∃ r ∈ allRulesList l, q ∈ rulePatternStrings r) ∧ q ≠ "" ∧ eng.compile q = none
  | [], e, h => by
    simp only [preCompileRoutes] at h
    exact Except.noConfusion h
  | rt :: rest, e, h => by
    simp only [preCompileRoutes] at h
    cases h1 : preCompileRoute eng rt with
    | error e1 =>
      simp only [h1, Except.error.injEq] at h
      subst h
      obtain ⟨q, hq, ⟨r, hr, hmem⟩, hne, hcomp⟩ := preCompileRoute_error_spec eng rt e1 h1
      refine ⟨q, hq, ⟨r, ?_, hmem⟩, hne, hcomp⟩
      simp only [allRulesList, List.mem_append]
      exact Or.inl hr
    | ok rt' =>
      simp only [h1] at h
      cases h2 : preCompileRoutes eng rest with
      | error e2 =>
        simp only [h2, Except.error.injEq] at h
        subst h
        obtain ⟨q, hq, ⟨r, hr, hmem⟩, hne, hcomp⟩ :=
          preCompileRoutes_error_spec eng rest e2 h2
        refine ⟨q, hq, ⟨r, ?_, hmem⟩, hne, hcomp⟩
        simp only [allRulesList, List.mem_append]
        exact Or.inr hr
      | ok rest' => simp only [h2] at h; exact Except.noConfusion h

end

/-- C7: after `Validate()` succeeds, every rule reachable from the root
route — in Drop lists, Match lists and arbitrarily nested child routes —
satisfies the compiled-pattern invariant (non-null compiled patterns
exactly for non-empty regex strings, in the fields and in every
Labels/Annotations entry); and when the tree reached by the precompile
step carries a non-empty regex string the engine rejects, `Validate()`
returns an error naming an offending pattern instead of succeeding. -/
theorem validate_precompiles_all_rules (eng : RegexEngine)
    (parseDur : String → Option Int) (c : Config) :
    (∀ c', Config.Validate eng parseDur c = .ok c' →
      ∀ r ∈ c'.Route.allRules, patternsOk r) ∧
    (∀ c₁ c₂, Config.validateDefaults parseDur c = .ok c₁ →
      Config.validateMetricsNamePrefixField eng c₁ = .ok c₂ →
      ∀ r₀ q₀, r₀ ∈ c₂.Route.allRules → q₀ ∈ rulePatternStrings r₀ → q₀ ≠ "" →
        eng.compile q₀ = none →
      ∃ e q, Config.Validate eng parseDur c = .error e ∧
        ConfigErr.errPattern e = some q ∧
        (∃ r ∈ c₂.Route.allRules, q ∈ rulePatternStrings r) ∧ q ≠ "" ∧
        eng.compile q = none) := by
  constructor
  · intro c' h
    unfold Config.Validate at h
    cases hd : Config.validateDefaults parseDur c with
    | error e => simp only [hd] at h; exact Except.noConfusion h
    | ok c₁ =>
      simp only [hd] at h
      cases hp : Config.validateMetricsNamePrefixField eng c₁ with
      | error e => simp only [hp] at h; exact Except.noConfusion h
      | ok c₂ =>
        simp only [hp] at h
        unfold Config.PreCompilePatterns at h
        cases hr : preCompileRoute eng c₂.Route with
        | error e => simp only [hr] at h; exact Except.noConfusion h
        | ok rt =>
          simp only [hr, Except.ok.injEq] at h
          subst h
          intro r hrr
          exact (preCompileRoute_ok_spec eng c₂.Route rt hr).1 r hrr
  · intro c₁ c₂ hd hp r₀ q₀ hr₀ hq₀ hne hcomp
    unfold Config.Validate
    simp only [hd, hp]
    unfold Config.PreCompilePatterns
    cases hr : preCompileRoute eng c₂.Route with
    | ok rt =>
      exfalso
      have hsome := (preCompileRoute_ok_spec eng c₂.Route rt hr).2 r₀ hr₀ q₀ hq₀ hne
      rw [hcomp] at hsome
      simp at hsome
    | error e =>
      obtain ⟨q, hq, hmem, hne', hcomp'⟩ := preCompileRoute_error_spec eng c₂.Route e hr
      exact ⟨e, q, rfl, hq, hmem, hne', hcomp'⟩

/-- Witness for C7: a config whose route drops on the invalid regex
`[bad` makes `Validate` fail with an error naming that pattern. -/
theorem validate_precompiles_all_rules_witness :
    ∃ e q, Config.Validate engAllButBad parseDurOne cfgBad = .error e ∧
      ConfigErr.errPattern e = some q ∧
      (∃ r ∈ cfgBadDefaults.Route.allRules, q ∈ rulePatternStrings r) ∧ q ≠ "" ∧
      engAllButBad.compile q = none :=
  (validate_precompiles_all_rules engAllButBad parseDurOne cfgBad).2 cfgBadDefaults
    cfgBadDefaults rfl rfl ruleBad "[bad"
    (by simp [cfgBadDefaults, cfgBad, Route.allRules, allRulesList])
    (by simp [rulePatternStrings, ruleBad])
    (by decide) rfl

end EventExporter
